import Mathlib

/-!
# Arcan terminal frameserver: embedding and verification

Shallow embedding of `src/frameserver/terminal/default/arcterm.c` (PTY pump,
render loop, child spawning, reset handling), of
`platform/android/paths.c` (`arcan_release_resource`) and of
`src/tools/waybridge/wlimpl/surf.c` (`surf_frame`).

External collaborators (the VT state machine, the text-UI display, the PTY
library, libc and the kernel) are not part of the sources.  Every call into
them is recorded as an event in the trace of the terminal state, and every
value they return is an explicit input of the embedded function.
-/

set_option linter.unusedVariables false

namespace Arcan

/-! ## Basic data -/

/-- One octet of PTY traffic. -/
abbrev Byte := Nat

/-- The `errno` values the terminal distinguishes after a failed `read`. -/
inductive Errno where
  | EAGAIN
  | EINTR
  | other (code : Nat)
deriving DecidableEq, Repr

/-- Result of one `read(fd, dst, 4096)`: the bytes the kernel has for us, or
`-1` with an `errno`. -/
inductive ReadRes where
  | data (bs : List Byte)
  | error (e : Errno)
deriving DecidableEq, Repr

/-- Handle of the PTY library (`struct shl_pty*`); only its descriptor matters. -/
structure Pty where
  fd : Int
deriving DecidableEq, Repr

/-- The signals sent with `shl_pty_signal`. -/
inductive Signal where
  | SIGCONT
  | SIGSTOP
  | SIGHUP
deriving DecidableEq, Repr

/-- The two mutexes of the terminal context. -/
inductive Mutex where
  | synch
  | hold
deriving DecidableEq, Repr

/-- Calls that leave `arcterm.c`, in program order.  A `read` carries what it
returned where the code looks at it (`none` where the result is ignored). -/
inductive Ev where
  | read (fd : Int) (count : Nat) (got : Option ReadRes)
  | write (fd : Int) (bs : List Byte)
  | poll (fds : List Int) (timeout : Int)
  | fread_stdin (count : Nat)
  | fwrite_stdout (bs : List Byte)
  | mutex_trylock (m : Mutex) (ok : Bool)
  | mutex_lock (m : Mutex)
  | mutex_unlock (m : Mutex)
  | alive_store (b : Bool)
  | pthread_create (rv : Int)
  | tsm_vte_input (bs : List Byte)
  | tsm_vte_update_debug
  | tsm_vte_hard_reset
  | tsm_vte_handle_keyboard (keysym ascii : Nat) (mods subid : Nat)
  | tsm_vte_mouse_motion (x y : Int) (mods : Int)
  | tsm_vte_mouse_button (button : Int) (active : Bool) (mods : Int)
  | tsm_vte_paste (bs : List Byte)
  | tsm_vte_debug
  | tsm_vte_debugfd
  | shl_pty_open (cols rows : Nat) (rv : Int)
  | shl_pty_close (p : Option Pty)
  | shl_pty_dispatch (p : Option Pty)
  | shl_pty_write (p : Option Pty) (bs : List Byte)
  | shl_pty_signal (p : Option Pty) (sig : Signal)
  | shl_pty_resize (p : Option Pty) (col row : Nat)
  | arcan_tui_set_flags_hide_cursor
  | arcan_tui_dimensions
  | arcan_tui_reset
  | arcan_tui_progress (value : Nat)
  | arcan_tui_refresh
  | arcan_tui_process
  | arcan_tui_destroy (msg : Option String)
  | arcan_tui_ident (title : List Byte)
  | debug_log
deriving DecidableEq, Repr

/-- The packed argument bag (`struct arg_arr`): keys with an optional value. -/
abbrev ArgArr := List (String × Option String)

/-- The process-wide `term` record of `arcterm.c`, with the file-static
`last_frame` and the trace of outgoing calls.  `screen` and `vte` are opaque
handles and appear only through the events issued on them. -/
structure Term where
  pty : Option Pty := none
  args : ArgArr := []
  child : Int := 0
  alive : Bool := false
  die_on_term : Bool := true
  complete_signal : Bool := false
  pipe : Bool := false
  last_input : Int := 0
  dirtyfd : Int := 0
  signalfd : Int := 0
  last_frame : Nat := 0
  trace : List Ev := []
deriving DecidableEq, Repr

/-- Append one outgoing call to the trace. -/
def Term.emit (t : Term) (e : Ev) : Term :=
  { t with trace := t.trace ++ [e] }

/-- The call `atomic_store(&term.alive, b)`. -/
def Term.store_alive (t : Term) (b : Bool) : Term :=
  { t with alive := b, trace := t.trace ++ [Ev.alive_store b] }

/-- Modelled from the spec: shl_pty_get_fd of tsm/shl-pty.c, which is not among
the sources.  The PTY primitive is an external collaborator whose handle "may
be nil after SIGHUP"; for a handle it yields the descriptor.  For the nil
handle the specification names no value: the embedding has to give one and
takes -22 (-EINVAL), and no statement below depends on which value it is. -/
def shl_pty_get_fd (p : Option Pty) : Int :=
  match p with
  | some q => q.fd
  | none => -22

/-! ## PTY pump thread -/

/-- Contents of `dst` after `read(fd, dst, 4096)` delivered `bs`. -/
def read_into (dst bs : List Byte) : List Byte :=
  bs.take 4096 ++ dst.drop (bs.take 4096).length

/-- Embedding of `flush_buffer(fd, dst)`, given the result of its `read`.
Returns the state, the buffer and `nr`. -/
def flush_buffer (t : Term) (fd : Int) (r : ReadRes) (dst : List Byte) :
    Term × List Byte × Int :=
  match r with
  | ReadRes.error e =>
    if e = Errno.EAGAIN ∨ e = Errno.EINTR then
      (t.emit (Ev.read fd 4096 (some (ReadRes.error e))), dst, -1)
    else
      ((((t.emit (Ev.read fd 4096 (some (ReadRes.error e)))).store_alive false).emit
        Ev.arcan_tui_set_flags_hide_cursor), dst, -1)
  | ReadRes.data bs =>
    (t.emit (Ev.read fd 4096 (some (ReadRes.data (bs.take 4096)))), read_into dst bs,
      ((bs.take 4096).length : Int))

/-- Embedding of `vte_forward(buf, nb)`. -/
def vte_forward (t : Term) (buf : List Byte) (nb : Nat) : Term :=
  let t1 := if t.pipe then t.emit (Ev.fwrite_stdout (buf.take nb)) else t
  t1.emit (Ev.tsm_vte_input (buf.take nb))

/-- Conversion of a `size_t` value to `ssize_t` on a 64-bit target. -/
def to_ssize (n : Nat) : Int :=
  if n % 2 ^ 64 < 2 ^ 63 then ((n % 2 ^ 64 : Nat) : Int) else ((n % 2 ^ 64 : Nat) : Int) - 2 ^ 64

/-- What `readout_pty` learns from outside: the first `read`, whether
`pthread_mutex_trylock(&term.synch)` succeeded, the screen dimensions, and for
the k-th test of the drain loop that reaches `poll` either `none` (the poll
did not return 1) or the result of the `read` that follows.  `stack` is what
the uninitialised `buf` holds on entry. -/
structure ReadoutEnv where
  first : ReadRes
  trylock_ok : Bool
  w : Nat
  h : Nat
  stack : List Byte
  more : Nat → Option ReadRes

/-- The drain loop of `readout_pty` (lines 109-116), entered at its test with
the current `nr`, `cap`, `buf` and the index `k` of the next poll. -/
def drain_loop (fd : Int) (more : Nat → Option ReadRes) (k : Nat) (nr cap : Int)
    (buf : List Byte) (t : Term) : Term :=
  if 0 < nr ∧ 0 < cap then
    match more k with
    | none => t.emit (Ev.poll [fd] 0)
    | some r =>
      let fb := flush_buffer (t.emit (Ev.poll [fd] 0)) fd r buf
      if 0 < fb.2.2 then
        drain_loop fd more (k + 1) fb.2.2 (cap - fb.2.2) fb.2.1
          (vte_forward fb.1 fb.2.1 fb.2.2.toNat)
      else
        drain_loop fd more (k + 1) fb.2.2 cap fb.2.1 fb.1
  else
    t
termination_by (cap.toNat, (if 0 < nr then 1 else 0 : Nat))
decreasing_by
  · rename_i h1 h2
    apply Prod.Lex.left
    have h3 : 0 < (flush_buffer (t.emit (Ev.poll [fd] 0)) fd r buf).2.2 := h2
    omega
  · rename_i h1 h2
    have h3 : ¬ 0 < (flush_buffer (t.emit (Ev.poll [fd] 0)) fd r buf).2.2 := h2
    simp only [h1.1, h3, if_true, if_false]
    exact Prod.Lex.right _ (by decide)

/-- Embedding of `readout_pty(fd)`. -/
def readout_pty (t : Term) (fd : Int) (env : ReadoutEnv) : Term × Bool :=
  let fb := flush_buffer t fd env.first env.stack
  if fb.2.2 < 0 then
    (fb.1, false)
  else
    let t1 := fb.1.emit (Ev.mutex_trylock Mutex.synch env.trylock_ok)
    let t2 :=
      if env.trylock_ok then t1
      else ((t1.emit (Ev.mutex_lock Mutex.hold)).emit (Ev.write t1.dirtyfd [49])).emit
        (Ev.mutex_lock Mutex.synch)
    let t3 := vte_forward t2 fb.2.1 fb.2.2.toNat
    let t4 := t3.emit Ev.arcan_tui_dimensions
    let t5 := drain_loop fd env.more 0 fb.2.2 (to_ssize (env.w * env.h * 4)) fb.2.1 t4
    let t6 := if env.trylock_ok then t5 else t5.emit (Ev.mutex_unlock Mutex.hold)
    (t6.emit (Ev.mutex_unlock Mutex.synch), true)

/-- What one pass of the `while (term.alive)` loop of `pump_pty` learns from
outside: the debug descriptor, the return value of `poll(set, 4, 10)`, which
of the four `revents` are non-zero, what `fread` gets from stdin, and the
inputs of `readout_pty`. -/
structure PumpPoll where
  debugfd : Int
  poll_rv : Int
  pty_ev : Bool
  dirty_ev : Bool
  debug_ev : Bool
  stdin_ev : Bool
  stdin_data : List Byte
  readout : ReadoutEnv

/-- Lines 164-171 of `pump_pty`: drain the wakeup descriptor, update the debug
window. -/
def pump_tail (t : Term) (p : PumpPoll) : Term :=
  let t1 := if p.dirty_ev then t.emit (Ev.read t.dirtyfd 256 none) else t
  if p.debug_ev then t1.emit Ev.tsm_vte_update_debug else t1

/-- One pass of the body of the loop of `pump_pty`; the flag is true when the
body left the function through `return NULL`. -/
def pump_body (fd : Int) (t : Term) (p : PumpPoll) : Term × Bool :=
  let t1 := (t.emit Ev.tsm_vte_debugfd).emit (Ev.shl_pty_dispatch t.pty)
  let t2 := t1.emit (Ev.poll [fd, t.dirtyfd, p.debugfd, if t.pipe then 0 else -1] 10)
  if p.poll_rv = -1 then
    (t2, false)
  else
    let t3 :=
      if t.pipe ∧ p.stdin_ev then
        if (p.stdin_data.take 4096).length ≠ 0 then
          (t2.emit (Ev.fread_stdin 4096)).emit (Ev.shl_pty_write t.pty (p.stdin_data.take 4096))
        else t2.emit (Ev.fread_stdin 4096)
      else t2
    if p.pty_ev then
      let ro := readout_pty t3 fd p.readout
      if ro.2 then (pump_tail ro.1 p, false) else (ro.1, true)
    else
      (pump_tail t3 p, false)

/-- Where a thread function stands after the inputs it was given. -/
inductive PumpStatus where
  | running
  | returned
deriving DecidableEq, Repr

/-- The `while (term.alive)` loop of `pump_pty` over the polls that happen. -/
def pump_loop (fd : Int) : Term → List PumpPoll → Term × PumpStatus
  | t, [] => (t, if t.alive then PumpStatus.running else PumpStatus.returned)
  | t, p :: ps =>
    if t.alive then
      if (pump_body fd t p).2 then ((pump_body fd t p).1, PumpStatus.returned)
      else pump_loop fd (pump_body fd t p).1 ps
    else (t, PumpStatus.returned)

/-- Embedding of `pump_pty()`: the descriptor is fetched once, then the loop. -/
def pump_pty (t : Term) (ps : List PumpPoll) : Term × PumpStatus :=
  pump_loop (shl_pty_get_fd t.pty) t ps

/-! ## Callbacks of the render thread -/

/-- Embedding of `on_u8`; `rv` is what `write` returns. -/
def on_u8 (t : Term) (u8 : List Byte) (rv : Int) : Term × Bool :=
  let t1 := t.emit (Ev.write (shl_pty_get_fd t.pty) u8)
  if rv < 0 then
    ((t1.store_alive false).emit Ev.arcan_tui_set_flags_hide_cursor, true)
  else
    (t1, true)

/-- Embedding of `on_resize`. -/
def on_resize (t : Term) (neww newh col row : Nat) : Term :=
  let t1 :=
    match t.pty with
    | some p => t.emit (Ev.shl_pty_resize (some p) col row)
    | none => t
  { t1 with last_frame := 0 }

/-- Embedding of `on_exec_state`. -/
def on_exec_state (t : Term) (state : Int) : Term :=
  if state = 0 then t.emit (Ev.shl_pty_signal t.pty Signal.SIGCONT)
  else if state = 1 then t.emit (Ev.shl_pty_signal t.pty Signal.SIGSTOP)
  else if state = 2 then t.emit (Ev.shl_pty_signal t.pty Signal.SIGHUP)
  else t

/-- Embedding of `on_key`; `isascii(keysym)` is `keysym < 128`. -/
def on_key (t : Term) (keysym scancode mods subid : Nat) : Term :=
  t.emit (Ev.tsm_vte_handle_keyboard keysym (if keysym < 128 then keysym else 0) mods subid)

/-- Embedding of `on_mouse_motion`. -/
def on_mouse_motion (t : Term) (relative : Bool) (x y modifiers : Int) : Term :=
  if relative then t else t.emit (Ev.tsm_vte_mouse_motion x y modifiers)

/-- Embedding of `on_mouse_button`. -/
def on_mouse_button (t : Term) (button : Int) (active : Bool) (modifiers : Int) : Term :=
  t.emit (Ev.tsm_vte_mouse_button button active modifiers)

/-- Embedding of `on_utf8_paste`. -/
def on_utf8_paste (t : Term) (str : List Byte) (cont : Bool) : Term :=
  t.emit (Ev.tsm_vte_paste str)

/-- Embedding of `on_subwindow`; `is_debug` is `type == TUI_WND_DEBUG` and
`ret` what `tsm_vte_debug` answers. -/
def on_subwindow (t : Term) (is_debug ret : Bool) : Term × Bool :=
  if is_debug then ((t.emit Ev.tsm_vte_debug).emit (Ev.write t.signalfd [97]), ret)
  else (t, false)

/-! ## Child side: environment and exec selection -/

/-- The process environment: names with their values, first match wins. -/
abbrev Env := List (String × String)

/-- The libc call `getenv`. -/
def getenv (e : Env) (name : String) : Option String :=
  (e.find? (fun kv => kv.1 == name)).map (fun kv => kv.2)

/-- The libc call `unsetenv`. -/
def unsetenv (e : Env) (name : String) : Env :=
  e.filter (fun kv => !(kv.1 == name))

/-- The libc call `setenv(name, value, overwrite)`. -/
def setenv (e : Env) (name value : String) (overwrite : Bool) : Env :=
  if overwrite || (getenv e name).isNone then (name, value) :: unsetenv e name else e

/-- The libc call `putenv(string)`: `NAME=value` sets `NAME`; a string without
`=` removes that name (glibc). -/
def putenv (e : Env) (s : String) : Env :=
  if s.data.contains '=' then
    setenv e (String.mk (s.data.takeWhile (fun c => !(c == '='))))
      (String.mk ((s.data.dropWhile (fun c => !(c == '='))).drop 1)) true
  else unsetenv e s

/-- Modelled from the spec: arg_lookup of the shmif library, which is not among
the sources.  The packed string is "key1=value:key2:key3=value" and a key may
repeat; the lookup finds the occurrence number `ind` of `key` and yields its
value, which is absent (NULL) for a key given without `=value`. -/
def arg_lookup (arr : ArgArr) (key : String) (ind : Nat) : Option (Option String) :=
  ((arr.filter (fun kv => kv.1 == key)).get? ind).map (fun kv => kv.2)

/-- The user database entry (`struct passwd`) as far as it is read. -/
structure Passwd where
  pw_name : String
  pw_shell : String
  pw_dir : String
deriving DecidableEq, Repr

/-- Embedding of `get_shellenv`, given the result of `getpwuid(getuid())`. -/
def get_shellenv (e : Env) (pass : Option Passwd) : Env × String :=
  let shell := getenv e "SHELL"
  let e1 :=
    if (getenv e "PATH").isNone then
      setenv e "PATH" "/usr/local/bin:/bin:/usr/bin:/usr/local/sbin:/usr/sbin:/sbin" true
    else e
  match pass with
  | some pw =>
    (setenv (setenv (setenv (setenv e1 "LOGNAME" pw.pw_name true) "USER" pw.pw_name true)
      "SHELL" pw.pw_shell false) "HOME" pw.pw_dir false, pw.pw_shell)
  | none => (e1, shell.getD "/bin/sh")

/-- Which of the two exec calls is made. -/
inductive ExecKind where
  | execv
  | execvp
deriving DecidableEq, Repr

/-- System calls of the child before it execs, besides the environment. -/
inductive ChildEv where
  | chdir (dir : Option String)
  | sigmask_empty
  | signals_default
  | pidfd_handshake (infd outfd : String)
deriving DecidableEq, Repr

/-- An exec call as the child issues it: the program, the argument vector
(`none` is a NULL vector), the environment it inherits and the calls made
before it.  When the call fails the child ends with `exit(EXIT_FAILURE)`. -/
structure ExecCall where
  kind : ExecKind
  file : String
  argv : Option (List String)
  env : Env
  pre : List ChildEv
deriving DecidableEq, Repr

/-- How a function of the child side ends: it returns, the process image is
replaced by an exec call, or it passes NULL to `strdup` (undefined). -/
inductive SpawnResult where
  | ret (b : Bool)
  | exec (c : ExecCall)
  | undefined
deriving DecidableEq, Repr

/-- What the forked child sees: its environment, the user database entry, the
file system (`stat(path) == 0 && S_ISREG`), the argument splitter
`extract_argv` of the cli module (its answer holds the padding slot in front,
`none` is NULL) and the build switches FSRV_TERMINAL_NOEXEC and __OpenBSD__. -/
structure ChildEnv where
  environ : Env
  passwd : Option Passwd
  is_regular : String → Bool
  extract_argv : String → Option (List String)
  noexec : Bool
  openbsd : Bool

/-- Embedding of `build_argv(appname, instr)`. -/
def build_argv (extract_argv : String → Option (List String)) (appname instr : String) :
    Option (List String) :=
  (extract_argv instr).map (fun res => res.set 0 appname)

/-- The values the loop `while (arg_lookup(argarr, "env", ind++, &val))` of
`setup_shell` visits, in order. -/
def env_overrides (arr : ArgArr) : List (Option String) :=
  (arr.filter (fun kv => kv.1 == "env")).map (fun kv => kv.2)

/-- The loop body `putenv(strdup(val))` over the visited values; `none` when a
value is NULL. -/
def putenv_all : Env → List (Option String) → Option Env
  | e, [] => some e
  | _, none :: _ => none
  | e, some v :: rest => putenv_all (putenv e v) rest

/-- The names `setup_shell` removes from the environment. -/
def unset_names : List String :=
  ["COLUMNS", "LINES", "TERMCAP", "ARCAN_ARG", "ARCAN_APPLPATH", "ARCAN_APPLTEMPPATH",
   "ARCAN_FRAMESERVER_LOGDIR", "ARCAN_RESOURCEPATH", "ARCAN_SHMKEY", "ARCAN_SOCKIN_FD",
   "ARCAN_STATEPATH"]

/-- Lines 405-423 of `setup_shell`: scrub, then the defaults. -/
def shell_defaults (openbsd : Bool) (e : Env) : Env :=
  setenv (setenv (setenv (unset_names.foldl unsetenv e) "LANG" "en_GB.UTF-8" false)
    "LC_CTYPE" "en_GB.UTF-8" false) "TERM" (if openbsd then "wsvt25" else "xterm-256color") true

/-- The calls of `setup_shell` between the overrides and the exec selection. -/
def shell_pre (argarr : ArgArr) : List ChildEv :=
  (match arg_lookup argarr "chdir" 0 with
   | some dir => [ChildEv.chdir dir]
   | none => []) ++ [ChildEv.sigmask_empty, ChildEv.signals_default]

/-- Lines 460-496 of `setup_shell`: the exec selection, with the environment
`e` as it is after the overrides and `exec_arg` already resolved. -/
def shell_exec (c : ChildEnv) (e : Env) (pre : List ChildEv) (exec_arg : Option String)
    (args : List String) : ExecCall :=
  match exec_arg with
  | some cmd =>
    let pre1 :=
      match getenv e "ARCAN_TERMINAL_PIDFD_IN", getenv e "ARCAN_TERMINAL_PIDFD_OUT" with
      | some i, some o => pre ++ [ChildEv.pidfd_handshake i o]
      | _, _ => pre
    let e1 := unsetenv (unsetenv (unsetenv (unsetenv e "ARCAN_TERMINAL_EXEC")
      "ARCAN_TERMINAL_PIDFD_IN") "ARCAN_TERMINAL_PIDFD_OUT") "ARCAN_TERMINAL_ARGV"
    match getenv e "ARCAN_TERMINAL_ARGV" with
    | some inarg =>
      { kind := ExecKind.execvp, file := cmd, argv := build_argv c.extract_argv cmd inarg,
        env := e1, pre := pre1 }
    | none =>
      { kind := ExecKind.execv, file := "/bin/sh", argv := some ["/bin/sh", "-c", cmd],
        env := e1, pre := pre1 }
  | none =>
    { kind := ExecKind.execvp, file := args.headD "", argv := some args, env := e, pre := pre }

/-- Embedding of `setup_shell(argarr, args)` in the environment `e`. -/
def setup_shell (c : ChildEnv) (e : Env) (argarr : ArgArr) (args : List String) :
    SpawnResult :=
  match putenv_all (shell_defaults c.openbsd e) (env_overrides argarr) with
  | none => SpawnResult.undefined
  | some e1 =>
    if c.noexec then
      SpawnResult.exec (shell_exec c e1 (shell_pre argarr) (getenv e1 "ARCAN_TERMINAL_EXEC") args)
    else
      match arg_lookup argarr "exec" 0 with
      | some (some v) => SpawnResult.exec (shell_exec c e1 (shell_pre argarr) (some v) args)
      | some none => SpawnResult.undefined
      | none =>
        SpawnResult.exec
          (shell_exec c e1 (shell_pre argarr) (getenv e1 "ARCAN_TERMINAL_EXEC") args)

/-! ## Spawning the child and the pump thread -/

/-- The value of `EXIT_FAILURE` in `<stdlib.h>`. -/
def EXIT_FAILURE : Int := 1

/-- What `setup_build_term` learns from outside: the screen dimensions, the
return value of `shl_pty_open` in this process (negative: failure, 0: we are
the child, positive: the pid of the child), the handle the library left in
`term.pty`, the return value of `pthread_create`, and the child's view. -/
structure SpawnEnv where
  rows : Nat
  cols : Nat
  pty_open_rv : Int
  pty_after : Option Pty
  pthread_create_rv : Int
  child : ChildEnv

/-- The slot `argv[2]` of the child's argument vector (lines 547-549): the
`cmd` argument when it is given with a value, NULL (the end of the vector)
otherwise. -/
def cmd_argv (args : ArgArr) : List String :=
  match arg_lookup args "cmd" 0 with
  | some (some v) => [v]
  | _ => []

/-- The child branch of `setup_build_term` (lines 543-567). -/
def setup_child (t : Term) (c : ChildEnv) : SpawnResult :=
  let sh := get_shellenv c.environ c.passwd
  match arg_lookup t.args "login" 0 with
  | some _ =>
    if c.is_regular "/bin/login" then
      setup_shell c sh.1 t.args ("/bin/login" :: "-p" :: cmd_argv t.args)
    else if c.is_regular "/usr/bin/login" then
      setup_shell c sh.1 t.args ("/usr/bin/login" :: "-p" :: cmd_argv t.args)
    else
      SpawnResult.ret (decide (EXIT_FAILURE ≠ 0))
  | none => setup_shell c sh.1 t.args (sh.2 :: "-i" :: cmd_argv t.args)

/-- Embedding of `setup_build_term()`. -/
def setup_build_term (t : Term) (env : SpawnEnv) : Term × SpawnResult :=
  let t1 := { t.emit Ev.arcan_tui_dimensions with complete_signal := false }
  let t2 := { t1.emit (Ev.shl_pty_open env.cols env.rows env.pty_open_rv) with
    pty := env.pty_after, child := env.pty_open_rv }
  if env.pty_open_rv < 0 then
    (t2.emit (Ev.arcan_tui_destroy (some "Shell process died unexpectedly")), SpawnResult.ret false)
  else if env.pty_open_rv = 0 then
    (t2, setup_child t2 env.child)
  else
    let t3 := (t2.store_alive true).emit (Ev.pthread_create env.pthread_create_rv)
    if env.pthread_create_rv = -1 then (t3.store_alive false, SpawnResult.ret true)
    else (t3, SpawnResult.ret true)

/-- Embedding of `on_reset(tui, state, tag)`; the second component is how the
call to `setup_build_term` ended, `none` where the call is not made. -/
def on_reset (t : Term) (state : Int) (env : SpawnEnv) : Term × Option SpawnResult :=
  if state = 0 then
    ((t.emit Ev.arcan_tui_reset).emit Ev.tsm_vte_hard_reset, none)
  else if state = 1 then
    let t1 := (t.emit Ev.arcan_tui_reset).emit Ev.tsm_vte_hard_reset
    let t2 := if t1.alive then (on_exec_state t1 2).store_alive false else t1
    let t3 := if !t2.die_on_term then t2.emit (Ev.arcan_tui_progress 0) else t2
    ((setup_build_term t3 env).1, some (setup_build_term t3 env).2)
  else
    (t, none)

/-! ## Render loop -/

/-- The callbacks `arcan_tui_process` can dispatch, with what each one learns
from outside. -/
inductive Callback where
  | u8 (bs : List Byte) (write_rv : Int)
  | key (keysym scancode mods subid : Nat)
  | mouse_motion (relative : Bool) (x y modifiers : Int)
  | mouse_button (button : Int) (active : Bool) (modifiers : Int)
  | paste (str : List Byte) (cont : Bool)
  | resize (neww newh col row : Nat)
  | subwindow (is_debug ret : Bool)
  | exec_state (state : Int)
  | reset (state : Int) (env : SpawnEnv)

/-- Run one callback of the table `cbcfg`. -/
def dispatch (t : Term) : Callback → Term × Option SpawnResult
  | Callback.u8 bs rv => ((on_u8 t bs rv).1, none)
  | Callback.key k sc m sub => (on_key t k sc m sub, none)
  | Callback.mouse_motion r x y m => (on_mouse_motion t r x y m, none)
  | Callback.mouse_button b a m => (on_mouse_button t b a m, none)
  | Callback.paste str c => (on_utf8_paste t str c, none)
  | Callback.resize w h c r => (on_resize t w h c r, none)
  | Callback.subwindow d r => ((on_subwindow t d r).1, none)
  | Callback.exec_state st => (on_exec_state t st, none)
  | Callback.reset st env => on_reset t st env

/-- What happens while the render thread is inside `arcan_tui_process`: a
callback is dispatched, or the pump thread stores `alive = false`. -/
inductive RenderEv where
  | cb (c : Callback)
  | pump_dead

/-- True when a callback did not come back: the process image was replaced or
the behaviour is undefined (both only in a forked child). -/
def SpawnResult.halts : Option SpawnResult → Bool
  | some (SpawnResult.exec _) => true
  | some SpawnResult.undefined => true
  | _ => false

/-- The effect of one `arcan_tui_process` call on the terminal state; the
second component is set when a callback did not come back. -/
def tui_process : Term → List RenderEv → Term × Option SpawnResult
  | t, [] => (t, none)
  | t, RenderEv.pump_dead :: es => tui_process { t with alive := false } es
  | t, RenderEv.cb c :: es =>
    if SpawnResult.halts (dispatch t c).2 then (dispatch t c) else tui_process (dispatch t c).1 es

/-- The value of `TUI_ERRC_OK`. -/
def TUI_ERRC_OK : Int := 0

/-- What one pass of the render loop learns from outside: what happens inside
`arcan_tui_process`, its result (`errc`, `ok`), and whether the pump thread
stores `alive = false` after the test of line 760 and before the loop test. -/
structure RenderStep where
  events : List RenderEv
  errc : Int
  ok : Bool
  late_dead : Bool

/-- Where the render thread stands after the passes it was given. -/
inductive RenderStatus where
  | running
  | exited
  | halted (r : Option SpawnResult)

/-- Lines 758-775: the completion marker, refresh, unlock and handshake. -/
def render_tail (t : Term) (s : RenderStep) : Term :=
  let t2 :=
    if !t.alive && !t.die_on_term && !t.complete_signal then
      { t.emit (Ev.arcan_tui_progress 1) with complete_signal := true }
    else t
  let t3 := (t2.emit Ev.arcan_tui_refresh).emit (Ev.mutex_unlock Mutex.synch)
  let t4 :=
    if s.ok then
      ((t3.emit (Ev.read t3.signalfd 256 none)).emit (Ev.mutex_lock Mutex.hold)).emit
        (Ev.mutex_unlock Mutex.hold)
    else t3
  if s.late_dead then { t4 with alive := false } else t4

/-- The state in which `arcan_tui_process` returns in a pass from `t`. -/
def render_process (t : Term) (s : RenderStep) : Term × Option SpawnResult :=
  tui_process ((t.emit (Ev.mutex_lock Mutex.synch)).emit Ev.arcan_tui_process) s.events

/-- The render loop of `afsrv_terminal` (lines 749-780) over the passes that
happen, with the `arcan_tui_destroy` that follows it. -/
def render_loop : Term → List RenderStep → Term × RenderStatus
  | t, [] =>
    if t.alive || !t.die_on_term then (t, RenderStatus.running)
    else (t.emit (Ev.arcan_tui_destroy none), RenderStatus.exited)
  | t, s :: ss =>
    if t.alive || !t.die_on_term then
      if SpawnResult.halts (render_process t s).2 then
        ((render_process t s).1, RenderStatus.halted (render_process t s).2)
      else if s.errc < TUI_ERRC_OK then
        ((render_process t s).1.emit (Ev.arcan_tui_destroy none), RenderStatus.exited)
      else render_loop (render_tail (render_process t s).1 s) ss
    else (t.emit (Ev.arcan_tui_destroy none), RenderStatus.exited)

/-! ## Resource release (platform/android/paths.c) -/

/-- The pointer in the `source` field of a `data_source`: NULL, the static tag
`tag_resleak`, or a heap string. -/
inductive Source where
  | null
  | tag_resleak
  | heap (s : String)
deriving DecidableEq, Repr

/-- The record `data_source`. -/
structure data_source where
  fd : Int
  start : Int
  len : Int
  source : Source
deriving DecidableEq, Repr

/-- Calls that leave `arcan_release_resource`. -/
inductive RelEv where
  | close (fd : Int)
  | free (p : Source)
  | strdup (s : String)
deriving DecidableEq, Repr

/-- The loop `while (trycount--) if (close(sptr->fd) == 0) break;` entered at
its test with the value of `trycount`; `closes k` tells whether the k-th call
of `close` succeeds.  Yields `trycount` after the loop and the number of
calls made. -/
def close_loop (closes : Nat → Bool) : Nat → Nat → Int × Nat
  | 0, k => (-1, k)
  | n + 1, k => if closes k then ((n : Int), k + 1) else close_loop closes n (k + 1)

/-- How a call of `arcan_release_resource` ends: it returns and leaves the
record in a state, or it reaches a `free` to which the C library gives no
meaning (a pointer that was freed before, or the static string
`tag_resleak`). -/
inductive Release where
  | returned (s : data_source)
  | undefined
deriving DecidableEq, Repr

/-- The text `snprintf(playbuf, sizeof(playbuf) - 1, "broken_fd(%d:%s)", fd,
source)` leaves in `playbuf`.  At that line `source` was just handed to `free`
(or is NULL), so what `%s` yields is not the text the record held: it is the
input `printed`. -/
def broken_fd (fd : Int) (printed : String) : String :=
  String.mk (("broken_fd(" ++ toString fd ++ ":" ++ printed ++ ")").data.take 4094)

/-- Embedding of `arcan_release_resource(sptr)`: how the call ends and the
calls made.  Inputs: `closes k` tells whether the k-th `close` succeeds,
`printed` is what `%s` yields for the freed `source` (lines 99 to 101),
`dup_ok` tells whether `strdup` returns memory.  A heap `source` of the record
is taken to be a live allocation on entry.  The first block yields the record,
whether its `source` pointer was freed and left in place, and the calls; the
trailing `if (sptr->source)` block then frees `source` once more. -/
def arcan_release_resource (closes : Nat → Bool) (printed : String) (dup_ok : Bool)
    (sptr : data_source) : Release × List RelEv :=
  let r1 : data_source × Bool × List RelEv :=
    if sptr.fd ≠ -1 then
      let cl := close_loop closes 10 0
      let ev1 := List.replicate cl.2 (RelEv.close sptr.fd)
      let s1 := if sptr.source = Source.tag_resleak then { sptr with source := Source.null } else sptr
      if cl.1 ≠ 0 then
        ({ s1 with source :=
              if dup_ok then Source.heap (broken_fd s1.fd printed) else Source.null },
          false,
          ev1 ++ [RelEv.free s1.source, RelEv.strdup (broken_fd s1.fd printed)])
      else
        ({ s1 with fd := -1, start := -1, len := -1 }, decide (s1.source ≠ Source.null),
          ev1 ++ [RelEv.free s1.source])
    else (sptr, false, [])
  if r1.1.source ≠ Source.null then
    if r1.2.1 = true ∨ r1.1.source = Source.tag_resleak then
      (Release.undefined, r1.2.2 ++ [RelEv.free r1.1.source])
    else
      (Release.returned { r1.1 with source := Source.null }, r1.2.2 ++ [RelEv.free r1.1.source])
  else (Release.returned r1.1, r1.2.2)

/-- The exec selection in the words of the specification (4.B step 6): when an
exec command is set, by the packed `exec` argument or else by
ARCAN_TERMINAL_EXEC, it is `execvp(cmd, parsed argv)` if ARCAN_TERMINAL_ARGV
is set and `execv("/bin/sh", ["/bin/sh", "-c", cmd])` otherwise; with no exec
command the passed argv is executed. -/
def spec_exec_selection (extract_argv : String → Option (List String))
    (packed exec_env argv_env : Option String) (args : List String) :
    ExecKind × String × Option (List String) :=
  match packed.orElse (fun _ => exec_env) with
  | some cmd =>
    match argv_env with
    | some inarg => (ExecKind.execvp, cmd, (extract_argv inarg).map (fun r => r.set 0 cmd))
    | none => (ExecKind.execv, "/bin/sh", some ["/bin/sh", "-c", cmd])
  | none => (ExecKind.execvp, args.headD "", some args)

/-- A terminal with a live child on descriptor 3 and an empty trace. -/
def live_term : Term := { pty := some { fd := 3 }, alive := true, child := 100 }

/-- The poll of the failing input of C1: the PTY is readable, the read fails
with EAGAIN. -/
def c1_poll : PumpPoll :=
  { debugfd := -1, poll_rv := 1, pty_ev := true, dirty_ev := false, debug_ev := false,
    stdin_ev := false, stdin_data := [],
    readout := { first := ReadRes.error Errno.EAGAIN, trylock_ok := true, w := 80, h := 24,
                 stack := [], more := fun _ => none } }

/-- A child in which neither login program exists. -/
def c2_child : ChildEnv :=
  { environ := [("SHELL", "/bin/bash")], passwd := none, is_regular := fun _ => false,
    extract_argv := fun _ => none, noexec := false, openbsd := false }

/-- The failing input of C2: we are the forked child (`shl_pty_open` gave 0). -/
def c2_env : SpawnEnv :=
  { rows := 24, cols := 80, pty_open_rv := 0, pty_after := none, pthread_create_rv := 0,
    child := c2_child }

/-- The terminal state of the failing input of C2: `login` is requested. -/
def c2_term : Term := { args := [("login", none)] }

/-- A child for the exec selection: ARCAN_TERMINAL_EXEC is set in the
environment, the packed arguments carry their own `exec` and request `login`. -/
def c3_child : ChildEnv :=
  { environ := [("ARCAN_TERMINAL_EXEC", "/usr/bin/top")], passwd := none,
    is_regular := fun _ => true, extract_argv := fun _ => none, noexec := false,
    openbsd := false }

/-- The packed arguments of the example of C3. -/
def c3_args : ArgArr := [("login", none), ("exec", some "/bin/echo hi")]

/-- The failing input of C4: an open resource on descriptor 7. -/
def c4_source : data_source := { fd := 7, start := 0, len := 16, source := Source.heap "font.ttf" }

/-! ## Trace observations -/

/-- The bytes handed to the VT by the calls of a trace, in order. -/
def vte_bytes : List Ev → List Byte
  | [] => []
  | Ev.tsm_vte_input bs :: es => bs ++ vte_bytes es
  | _ :: es => vte_bytes es

/-- The bytes returned by the successful reads of descriptor `fd` in a trace,
in order. -/
def read_bytes (fd : Int) : List Ev → List Byte
  | [] => []
  | Ev.read fd1 _ (some (ReadRes.data bs)) :: es =>
    if fd1 = fd then bs ++ read_bytes fd es else read_bytes fd es
  | _ :: es => read_bytes fd es

/-- The calls the drain loop of `readout_pty` can make. -/
def drain_ev : Ev → Bool
  | Ev.poll _ _ => true
  | Ev.read _ _ _ => true
  | Ev.alive_store _ => true
  | Ev.arcan_tui_set_flags_hide_cursor => true
  | Ev.fwrite_stdout _ => true
  | Ev.tsm_vte_input _ => true
  | _ => false

/-- Calls that change the VT state machine. -/
def mutates_vt : Ev → Bool
  | Ev.tsm_vte_input _ => true
  | Ev.tsm_vte_update_debug => true
  | Ev.tsm_vte_hard_reset => true
  | Ev.tsm_vte_handle_keyboard _ _ _ _ => true
  | Ev.tsm_vte_mouse_motion _ _ _ => true
  | Ev.tsm_vte_mouse_button _ _ _ => true
  | Ev.tsm_vte_paste _ => true
  | Ev.tsm_vte_debug => true
  | _ => false

/-- The call `tsm_vte_input`. -/
def is_vte_input : Ev → Bool
  | Ev.tsm_vte_input _ => true
  | _ => false

/-- Whether the thread holds `synch` after a call, given whether it held it
before. -/
def synch_after (held : Bool) : Ev → Bool
  | Ev.mutex_lock Mutex.synch => true
  | Ev.mutex_trylock Mutex.synch ok => held || ok
  | Ev.mutex_unlock Mutex.synch => false
  | _ => held

/-- Whether the thread holds `synch` after a run of calls. -/
def synch_after_all (held : Bool) (es : List Ev) : Bool :=
  es.foldl synch_after held

/-- Every call of the trace of one thread that satisfies `p` is made while
that thread holds `synch`. -/
def vt_guarded (p : Ev → Bool) : Bool → List Ev → Bool
  | _, [] => true
  | held, e :: es => (!p e || held) && vt_guarded p (synch_after held e) es

/-- The number of `arcan_tui_progress(.., 1.0)` calls in a trace. -/
def progress_done (es : List Ev) : Nat :=
  es.count (Ev.arcan_tui_progress 1)

/-- The values `alive` takes over a trace, from its value at the start. -/
def alive_history (start : Bool) : List Ev → List Bool
  | [] => [start]
  | Ev.alive_store b :: es => start :: alive_history b es
  | _ :: es => alive_history start es

/-- The number of steps from false to true in a run of values. -/
def rises : List Bool → Nat
  | false :: true :: rest => rises (true :: rest) + 1
  | _ :: rest => rises rest
  | [] => 0

/-- The calls by which `readout_pty` takes `synch`. -/
def readout_lock (dirtyfd : Int) (ok : Bool) : List Ev :=
  if ok then [Ev.mutex_trylock Mutex.synch true]
  else [Ev.mutex_trylock Mutex.synch false, Ev.mutex_lock Mutex.hold, Ev.write dirtyfd [49],
    Ev.mutex_lock Mutex.synch]

/-- The calls by which `readout_pty` gives the mutexes back. -/
def readout_unlock (ok : Bool) : List Ev :=
  if ok then [Ev.mutex_unlock Mutex.synch]
  else [Ev.mutex_unlock Mutex.hold, Ev.mutex_unlock Mutex.synch]

/-- Calls that neither take nor release `synch`. -/
def synch_neutral : Ev → Bool
  | Ev.mutex_lock Mutex.synch => false
  | Ev.mutex_trylock Mutex.synch _ => false
  | Ev.mutex_unlock Mutex.synch => false
  | _ => true

/-- The state `t1` comes from `t` by calls that all satisfy `P`. -/
def Ext (P : Ev → Bool) (t t1 : Term) : Prop :=
  ∃ evs, t1.trace = t.trace ++ evs ∧ ∀ e ∈ evs, P e = true

/-- Calls a callback of the render thread can make: they leave `synch` alone
and are not the completion marker. -/
def cb_ev (e : Ev) : Bool :=
  synch_neutral e && !decide (e = Ev.arcan_tui_progress 1)

/-- The thread got from `t` to `a` with every call in `p` made under `synch`. -/
def Guarded (p : Ev → Bool) (t a : Term) : Prop :=
  ∃ evs, a.trace = t.trace ++ evs ∧ vt_guarded p false evs = true

/-- As `Guarded`, and the thread does not hold `synch` at the end. -/
def Safe (p : Ev → Bool) (t a : Term) : Prop :=
  ∃ evs, a.trace = t.trace ++ evs ∧ vt_guarded p false evs = true ∧
    synch_after_all false evs = false

/-- Calls of the pump thread outside `readout_pty`. -/
def pump_plain (e : Ev) : Bool :=
  synch_neutral e && !is_vte_input e

/-- The completion marker of line 761, when the test of line 760 holds in `t`. -/
def render_marker (t : Term) : List Ev :=
  if !t.alive && !t.die_on_term && !t.complete_signal then [Ev.arcan_tui_progress 1] else []

/-- The handshake of lines 770-775 after a pass whose result has `ok` set. -/
def render_handshake (signalfd : Int) (ok : Bool) : List Ev :=
  if ok then [Ev.read signalfd 256 none, Ev.mutex_lock Mutex.hold, Ev.mutex_unlock Mutex.hold]
  else []

/-- A poll of the pump loop in which only the debug descriptor is ready. -/
def c9_poll : PumpPoll :=
  { debugfd := 5, poll_rv := 1, pty_ev := false, dirty_ev := false, debug_ev := true,
    stdin_ev := false, stdin_data := [],
    readout := { first := ReadRes.data [], trylock_ok := true, w := 80, h := 24, stack := [],
                 more := fun _ => none } }

/-- The calls `on_reset(tui, 1, tag)` makes in the terminal process (the
parent of the fork): reset of display and VT, SIGHUP and the store of
`alive = false` when the child was alive, the zeroed progress when
`keep_alive` is set, then those of `setup_build_term`: the dimensions and
`shl_pty_open`, followed by `arcan_tui_destroy` when `shl_pty_open` failed and
otherwise by the store of `alive = true`, `pthread_create` and, when that
returned -1, the store of `alive = false`. -/
def hard_reset_calls (t : Term) (env : SpawnEnv) : List Ev :=
  [Ev.arcan_tui_reset, Ev.tsm_vte_hard_reset] ++
    (if t.alive then [Ev.shl_pty_signal t.pty Signal.SIGHUP, Ev.alive_store false] else []) ++
    (if t.die_on_term then [] else [Ev.arcan_tui_progress 0]) ++
    [Ev.arcan_tui_dimensions, Ev.shl_pty_open env.cols env.rows env.pty_open_rv] ++
    (if env.pty_open_rv < 0 then
      [Ev.arcan_tui_destroy (some "Shell process died unexpectedly")]
     else
      [Ev.alive_store true, Ev.pthread_create env.pthread_create_rv] ++
        (if env.pthread_create_rv = -1 then [Ev.alive_store false] else []))

/-- A child view that is never consulted in the parent. -/
def no_child : ChildEnv :=
  { environ := [], passwd := none, is_regular := fun _ => false, extract_argv := fun _ => none,
    noexec := false, openbsd := false }

/-- A spawn in which `shl_pty_open` fails. -/
def spawn_fail : SpawnEnv :=
  { rows := 24, cols := 80, pty_open_rv := -1, pty_after := some { fd := 3 },
    pthread_create_rv := 0, child := no_child }

/-- A spawn that succeeds: child pid 101 on a new PTY, pump thread created. -/
def spawn_ok : SpawnEnv :=
  { rows := 24, cols := 80, pty_open_rv := 101, pty_after := some { fd := 4 },
    pthread_create_rv := 0, child := no_child }

/-- A spawn in which `shl_pty_open` succeeds and `pthread_create` reports
failure the way the code tests for it. -/
def spawn_no_thread : SpawnEnv :=
  { rows := 24, cols := 80, pty_open_rv := 101, pty_after := some { fd := 4 },
    pthread_create_rv := -1, child := no_child }

/-- A reset event with state 1 among the things that happen inside
`arcan_tui_process`: the one callback that calls `setup_build_term`. -/
def is_hard_reset : RenderEv → Bool
  | RenderEv.cb (Callback.reset state _) => decide (state = 1)
  | _ => false

/-- A terminal started with `keep_alive` whose child is alive. -/
def c6_term : Term :=
  { pty := some { fd := 3 }, alive := true, child := 100, die_on_term := false }

/-- A pass of the render loop in which nothing happens. -/
def c6_idle : RenderStep := { events := [], errc := 0, ok := false, late_dead := false }

/-- A pass of the render loop during which the pump thread stores
`alive = false`. -/
def c6_dies : RenderStep :=
  { events := [RenderEv.pump_dead], errc := 0, ok := true, late_dead := false }

/-- The calls the render loop makes without holding `synch`: taking a mutex,
the handshake after the release (drain `signalfd`, lock and unlock `hold`) and
the `arcan_tui_destroy(term.screen, NULL)` after the loop. -/
def render_unlocked : Ev → Bool
  | Ev.mutex_lock _ => true
  | Ev.mutex_unlock Mutex.hold => true
  | Ev.read _ _ none => true
  | Ev.arcan_tui_destroy none => true
  | _ => false

/-- Every other call of the render thread. -/
def render_locked (e : Ev) : Bool :=
  !render_unlocked e

/-- The C string that starts at a byte buffer: the bytes before the first NUL. -/
def cstring (bs : List Byte) : List Byte :=
  bs.takeWhile (fun b => !(b == 0))

/-- Embedding of `str_callback`: `msg` is the NUL-terminated buffer the VT
hands over (`none` for NULL), `len` the length it reports.  The characters
'0', '1', '2' and ';' are 48, 49, 50 and 59. -/
def str_callback (t : Term) (msg : Option (List Byte)) (len : Nat) (crop : Bool) : Term :=
  match msg with
  | none => t.emit Ev.debug_log
  | some m =>
    if len < 3 ∨ crop = true then t.emit Ev.debug_log
    else if (m.get? 0 = some 48 ∨ m.get? 0 = some 49 ∨ m.get? 0 = some 50) ∧
        m.get? 1 = some 59 then
      t.emit (Ev.arcan_tui_ident (cstring (m.drop 2)))
    else t.emit Ev.debug_log

/-- Whether the byte string `m` begins with the byte string `p`. -/
def begins_with : List Byte → List Byte → Bool
  | [], _ => true
  | _ :: _, [] => false
  | a :: p, b :: m => a == b && begins_with p m

/-- A set-title request in the words of the specification: the message begins
with "0;", "1;" or "2;". -/
def title_request (m : List Byte) : Bool :=
  begins_with [48, 59] m || begins_with [49, 59] m || begins_with [50, 59] m

/-- The signal the specification assigns to an execution-state value: 0, 1, 2
map to SIGCONT, SIGSTOP, SIGHUP. -/
def spec_exec_signal (s : Int) : Option Signal :=
  if s = 0 then some Signal.SIGCONT
  else if s = 1 then some Signal.SIGSTOP
  else if s = 2 then some Signal.SIGHUP
  else none

/-- The signals sent by the calls of a trace, in order. -/
def signals_sent : List Ev → List Signal
  | [] => []
  | Ev.shl_pty_signal _ sig :: es => sig :: signals_sent es
  | _ :: es => signals_sent es

/-- One entry of the `scratch` array of a surface: `type` 0 marks a free slot,
`res` is the callback resource (`none` for NULL), `id` the callback id. -/
structure scratch_slot where
  type : Nat
  res : Option Nat
  id : Nat
deriving DecidableEq, Repr

/-- The record `comp_surf` (waybridge) as far as `surf_frame` uses it; the
length of `scratch` is `COUNT_OF(surf->scratch)`. -/
structure comp_surf where
  frames_pending : Nat
  subsurf_pending : Nat
  scratch : List scratch_slot
deriving DecidableEq, Repr

/-- Calls into libwayland made by `surf_frame`. -/
inductive WlEv where
  | wl_resource_create (id : Nat) (res : Option Nat)
  | wl_resource_post_no_memory
deriving DecidableEq, Repr

/-- The loop of lines 89-97 of surf.c over the slots from the current index
on: the first slot with `type == 0` takes the callback; `none` when the loop
runs off the end of the array. -/
def scratch_store (cbres cb : Nat) : List scratch_slot → Option (List scratch_slot)
  | [] => none
  | s :: rest =>
    if s.type = 0 then some ({ type := 1, res := some cbres, id := cb } :: rest)
    else (scratch_store cbres cb rest).map (fun r => s :: r)

/-- Embedding of `surf_frame(cl, res, cb)`; `cbres` is what
`wl_resource_create` returns. -/
def surf_frame (surf : comp_surf) (cb : Nat) (cbres : Option Nat) : comp_surf × List WlEv :=
  if surf.frames_pending + surf.subsurf_pending > surf.scratch.length then
    (surf, [WlEv.wl_resource_post_no_memory])
  else
    match cbres with
    | none => (surf, [WlEv.wl_resource_create cb none, WlEv.wl_resource_post_no_memory])
    | some r =>
      match scratch_store r cb surf.scratch with
      | some sc =>
        ({ surf with frames_pending := surf.frames_pending + 1, scratch := sc },
          [WlEv.wl_resource_create cb (some r)])
      | none => (surf, [WlEv.wl_resource_create cb (some r)])

/-- The number of occupied slots (`type != 0`) of a scratch array. -/
def occupied (sc : List scratch_slot) : Nat :=
  (sc.filter (fun s => !(s.type == 0))).length

/-- A surface whose two scratch slots both hold a pending frame callback. -/
def c13_surf : comp_surf :=
  { frames_pending := 2, subsurf_pending := 0,
    scratch := [{ type := 1, res := some 11, id := 1 }, { type := 1, res := some 12, id := 2 }] }

/-- The map that sends `k` to `v` and agrees with `m` elsewhere. -/
def env_update (m : String → Option String) (k v : String) : String → Option String :=
  fun n => if n = k then some v else m n

/-- The first step of the specification: the incoming environment with the
scrubbed names removed. -/
def spec_scrub (e : Env) : String → Option String :=
  fun n => if n ∈ unset_names then none else getenv e n

/-- The second step of the specification: LANG and LC_CTYPE set to en_GB.UTF-8
only if unset, TERM set to xterm-256color unconditionally. -/
def spec_defaults (e : Env) : String → Option String :=
  env_update
    (fun n =>
      if n = "LANG" ∨ n = "LC_CTYPE" then some ((spec_scrub e n).getD "en_GB.UTF-8")
      else spec_scrub e n)
    "TERM" "xterm-256color"

/-- The child's environment in the words of the specification, as a map from
names to values: scrub, then defaults, then every K=V override applied in
argument order. -/
def spec_child_env (e : Env) (overrides : List (String × String)) : String → Option String :=
  overrides.foldl (fun m kv => env_update m kv.1 kv.2) (spec_defaults e)

/-- Packed arguments with two overrides of the same name. -/
def c12_args : ArgArr := [("env", some "LANG=C"), ("keep_alive", none), ("env", some "LANG=de_DE")]

/-- The `env` argument value that carries the override K=V. -/
def override_arg (kv : String × String) : Option String :=
  some (kv.1 ++ "=" ++ kv.2)

/-- The variables `setup_shell` removes before an exec command is run. -/
def exec_names : List String :=
  ["ARCAN_TERMINAL_EXEC", "ARCAN_TERMINAL_PIDFD_IN", "ARCAN_TERMINAL_PIDFD_OUT",
   "ARCAN_TERMINAL_ARGV"]

@[simp] theorem emit_trace (t : Term) (e : Ev) : (t.emit e).trace = t.trace ++ [e] := rfl

@[simp] theorem emit_alive (t : Term) (e : Ev) : (t.emit e).alive = t.alive := rfl

@[simp] theorem emit_pty (t : Term) (e : Ev) : (t.emit e).pty = t.pty := rfl

@[simp] theorem emit_pipe (t : Term) (e : Ev) : (t.emit e).pipe = t.pipe := rfl

@[simp] theorem emit_dirtyfd (t : Term) (e : Ev) : (t.emit e).dirtyfd = t.dirtyfd := rfl

@[simp] theorem emit_signalfd (t : Term) (e : Ev) : (t.emit e).signalfd = t.signalfd := rfl

@[simp] theorem emit_die_on_term (t : Term) (e : Ev) :
    (t.emit e).die_on_term = t.die_on_term := rfl

@[simp] theorem emit_complete_signal (t : Term) (e : Ev) :
    (t.emit e).complete_signal = t.complete_signal := rfl

@[simp] theorem store_alive_trace (t : Term) (b : Bool) :
    (t.store_alive b).trace = t.trace ++ [Ev.alive_store b] := rfl

@[simp] theorem store_alive_alive (t : Term) (b : Bool) : (t.store_alive b).alive = b := rfl

@[simp] theorem store_alive_pty (t : Term) (b : Bool) : (t.store_alive b).pty = t.pty := rfl

@[simp] theorem store_alive_dirtyfd (t : Term) (b : Bool) :
    (t.store_alive b).dirtyfd = t.dirtyfd := rfl

@[simp] theorem store_alive_signalfd (t : Term) (b : Bool) :
    (t.store_alive b).signalfd = t.signalfd := rfl

@[simp] theorem store_alive_pipe (t : Term) (b : Bool) : (t.store_alive b).pipe = t.pipe := rfl

@[simp] theorem store_alive_die_on_term (t : Term) (b : Bool) :
    (t.store_alive b).die_on_term = t.die_on_term := rfl

@[simp] theorem store_alive_complete_signal (t : Term) (b : Bool) :
    (t.store_alive b).complete_signal = t.complete_signal := rfl

/-! ## The environment -/

theorem getenv_cons (kv : String × String) (rest : Env) (m : String) :
    getenv (kv :: rest) m = if kv.1 = m then some kv.2 else getenv rest m := by
  unfold getenv
  by_cases h : kv.1 = m <;> simp [List.find?_cons, h]

theorem unsetenv_cons (kv : String × String) (rest : Env) (n : String) :
    unsetenv (kv :: rest) n = if kv.1 = n then unsetenv rest n else kv :: unsetenv rest n := by
  unfold unsetenv
  by_cases h : kv.1 = n <;> simp [List.filter_cons, h]

theorem getenv_unsetenv_ne (e : Env) (n m : String) (h : m ≠ n) :
    getenv (unsetenv e n) m = getenv e m := by
  induction e with
  | nil => rfl
  | cons kv rest ih =>
    rw [unsetenv_cons, getenv_cons]
    by_cases hn : kv.1 = n
    · have hm : ¬ kv.1 = m := fun hk => h (hk.symm.trans hn)
      rw [if_pos hn, if_neg hm, ih]
    · rw [if_neg hn, getenv_cons, ih]

theorem getenv_unsetenv_self (e : Env) (n : String) : getenv (unsetenv e n) n = none := by
  induction e with
  | nil => rfl
  | cons kv rest ih =>
    rw [unsetenv_cons]
    by_cases hn : kv.1 = n
    · rw [if_pos hn, ih]
    · rw [if_neg hn, getenv_cons, if_neg hn, ih]

theorem getenv_setenv_ne (e : Env) (n v m : String) (o : Bool) (h : m ≠ n) :
    getenv (setenv e n v o) m = getenv e m := by
  unfold setenv
  split_ifs
  · have hm : ¬ n = m := fun hk => h hk.symm
    rw [getenv_cons, if_neg hm, getenv_unsetenv_ne e n m h]
  · rfl

theorem getenv_unset_all (names : List String) (e : Env) (m : String) (h : m ∉ names) :
    getenv (names.foldl unsetenv e) m = getenv e m := by
  induction names generalizing e with
  | nil => rfl
  | cons n ns ih =>
    simp only [List.mem_cons, not_or] at h
    rw [List.foldl_cons, ih _ h.2, getenv_unsetenv_ne e n m h.1]

/-- The scrub and the defaults of `setup_shell` leave every name alone that is
neither scrubbed nor given a default. -/
theorem shell_defaults_keeps (openbsd : Bool) (e : Env) (m : String) (h : m ∉ unset_names)
    (h1 : m ≠ "LANG") (h2 : m ≠ "LC_CTYPE") (h3 : m ≠ "TERM") :
    getenv (shell_defaults openbsd e) m = getenv e m := by
  unfold shell_defaults
  rw [getenv_setenv_ne _ _ _ _ _ h3, getenv_setenv_ne _ _ _ _ _ h2, getenv_setenv_ne _ _ _ _ _ h1,
    getenv_unset_all _ _ _ h]

/-! ## C1: a failed PTY read in the pump thread -/

/-- A transient failure (EAGAIN or EINTR) of the first read of a pass makes
`readout_pty` answer false with `alive` untouched. -/
theorem readout_pty_transient (t : Term) (fd : Int) (env : ReadoutEnv) (e : Errno)
    (hfirst : env.first = ReadRes.error e) (he : e = Errno.EAGAIN ∨ e = Errno.EINTR) :
    (readout_pty t fd env).2 = false ∧ (readout_pty t fd env).1.alive = t.alive := by
  simp [readout_pty, flush_buffer, hfirst, he]

/-- A fatal failure of the first read of a pass stores `alive = false`, hides
the cursor and makes `readout_pty` answer false. -/
theorem readout_pty_fatal (t : Term) (fd : Int) (env : ReadoutEnv) (e : Errno)
    (hfirst : env.first = ReadRes.error e) (he : ¬ (e = Errno.EAGAIN ∨ e = Errno.EINTR)) :
    readout_pty t fd env =
      ((((t.emit (Ev.read fd 4096 (some (ReadRes.error e)))).store_alive false).emit
        Ev.arcan_tui_set_flags_hide_cursor), false) := by
  simp [readout_pty, flush_buffer, hfirst, he]

/-- The pass of the pump loop in which the first read fails transiently
leaves through `return NULL` with `alive` untouched. -/
theorem pump_body_transient (fd : Int) (t : Term) (p : PumpPoll) (e : Errno)
    (hpoll : p.poll_rv ≠ -1) (hev : p.pty_ev = true)
    (hfirst : p.readout.first = ReadRes.error e) (he : e = Errno.EAGAIN ∨ e = Errno.EINTR) :
    (pump_body fd t p).2 = true ∧ (pump_body fd t p).1.alive = t.alive := by
  have key : ∀ t3 : Term, t3.alive = t.alive →
      (if (readout_pty t3 fd p.readout).2 then (pump_tail (readout_pty t3 fd p.readout).1 p, false)
        else ((readout_pty t3 fd p.readout).1, true)).2 = true ∧
      (if (readout_pty t3 fd p.readout).2 then (pump_tail (readout_pty t3 fd p.readout).1 p, false)
        else ((readout_pty t3 fd p.readout).1, true)).1.alive = t.alive := by
    intro t3 h3
    have hb := readout_pty_transient t3 fd p.readout e hfirst he
    simp [hb.1, hb.2, h3]
  unfold pump_body
  simp only [hpoll, if_false, hev, if_true]
  apply key
  split_ifs <;> rfl

/-- C1 (divergence): when the PTY is readable and the first `read` of the pass
fails with EAGAIN or EINTR, the pump thread leaves `pump_pty` through
`return NULL` although `alive` is still true; the read is not retried. -/
theorem pump_pty_transient_read_exits (t : Term) (p : PumpPoll) (ps : List PumpPoll)
    (e : Errno) (halive : t.alive = true) (hpoll : p.poll_rv ≠ -1) (hev : p.pty_ev = true)
    (hfirst : p.readout.first = ReadRes.error e) (he : e = Errno.EAGAIN ∨ e = Errno.EINTR) :
    (pump_pty t (p :: ps)).2 = PumpStatus.returned ∧ (pump_pty t (p :: ps)).1.alive = true := by
  have hb := pump_body_transient (shl_pty_get_fd t.pty) t p e hpoll hev hfirst he
  simp [pump_pty, pump_loop, halive, hb.1, hb.2]

/-- C1 at a concrete input: one readable poll whose read fails with EAGAIN ends
the pump thread with `alive` still true. -/
theorem pump_pty_transient_read_exits_witness :
    (pump_pty live_term [c1_poll]).2 = PumpStatus.returned ∧
    (pump_pty live_term [c1_poll]).1.alive = true :=
  pump_pty_transient_read_exits live_term c1_poll [] Errno.EAGAIN rfl (by decide) rfl rfl
    (Or.inl rfl)

/-! ## C2: `login` requested and no login program -/

/-- With `login` requested and a login program present, the child hands
`setup_shell` an argument vector that starts with that program and "-p",
/bin/login taking precedence. -/
theorem setup_child_login_found (t : Term) (c : ChildEnv)
    (hlogin : arg_lookup t.args "login" 0 ≠ none)
    (hsome : c.is_regular "/bin/login" = true ∨ c.is_regular "/usr/bin/login" = true) :
    setup_child t c =
      setup_shell c (get_shellenv c.environ c.passwd).1 t.args
        ((if c.is_regular "/bin/login" then "/bin/login" else "/usr/bin/login") :: "-p" ::
          cmd_argv t.args) := by
  unfold setup_child
  cases hl : arg_lookup t.args "login" 0 with
  | none => exact absurd hl hlogin
  | some v =>
    by_cases hb : c.is_regular "/bin/login" = true
    · simp [hb]
    · have hu : c.is_regular "/usr/bin/login" = true := hsome.resolve_left hb
      simp [hb, hu]

/-- C2 (divergence): in the forked child, with `login` requested and neither
/bin/login nor /usr/bin/login a regular file, `setup_build_term` makes no exec
call and returns `EXIT_FAILURE` through its `bool` result, which is true: the
child reports success. -/
theorem setup_build_term_login_missing (t : Term) (env : SpawnEnv)
    (hchild : env.pty_open_rv = 0) (hlogin : arg_lookup t.args "login" 0 ≠ none)
    (hbin : env.child.is_regular "/bin/login" = false)
    (husr : env.child.is_regular "/usr/bin/login" = false) :
    (setup_build_term t env).2 = SpawnResult.ret true := by
  have hargs : ∀ (t1 : Term), t1.args = t.args → setup_child t1 env.child = SpawnResult.ret true := by
    intro t1 h1
    unfold setup_child
    rw [h1]
    cases hl : arg_lookup t.args "login" 0 with
    | none => exact absurd hl hlogin
    | some v => simp [hbin, husr, EXIT_FAILURE]
  simp only [setup_build_term, hchild]
  simp only [lt_irrefl, if_false, if_true]
  exact hargs _ rfl

/-- C2 at a concrete input: `login` requested, no login program on the system. -/
theorem setup_build_term_login_missing_witness :
    (setup_build_term c2_term c2_env).2 = SpawnResult.ret true :=
  setup_build_term_login_missing c2_term c2_env rfl (by decide) rfl rfl

/-! ## C3: the program `setup_shell` execs -/

/-- C3: in a build that allows `exec`, when every `env` override and the
`exec` argument carry a value, `setup_shell` ends in an exec call whose
program and argument vector are the selection the specification describes,
taken at the packed `exec` argument and at ARCAN_TERMINAL_EXEC and
ARCAN_TERMINAL_ARGV as `setup_shell` reads them (after the overrides, and
with no override just as they came in); neither `login` nor any other
argument enters the selection. -/
theorem setup_shell_exec_selection (c : ChildEnv) (e e1 : Env) (argarr : ArgArr)
    (args : List String) (hbuild : c.noexec = false)
    (henv : putenv_all (shell_defaults c.openbsd e) (env_overrides argarr) = some e1)
    (hexec : arg_lookup argarr "exec" 0 ≠ some none) :
    (∃ call, setup_shell c e argarr args = SpawnResult.exec call ∧
      (call.kind, call.file, call.argv) =
        spec_exec_selection c.extract_argv ((arg_lookup argarr "exec" 0).bind id)
          (getenv e1 "ARCAN_TERMINAL_EXEC") (getenv e1 "ARCAN_TERMINAL_ARGV") args) ∧
    (env_overrides argarr = [] →
      getenv e1 "ARCAN_TERMINAL_EXEC" = getenv e "ARCAN_TERMINAL_EXEC" ∧
      getenv e1 "ARCAN_TERMINAL_ARGV" = getenv e "ARCAN_TERMINAL_ARGV") := by
  constructor
  · unfold setup_shell
    simp only [henv, hbuild]
    cases hx : arg_lookup argarr "exec" 0 with
    | none =>
      refine ⟨_, rfl, ?_⟩
      simp only [Option.bind, spec_exec_selection, Option.orElse, shell_exec]
      cases getenv e1 "ARCAN_TERMINAL_EXEC" with
      | none => rfl
      | some cmd =>
        cases getenv e1 "ARCAN_TERMINAL_ARGV" with
        | none => rfl
        | some inarg => rfl
    | some v =>
      cases v with
      | none => exact absurd hx hexec
      | some cmd =>
        refine ⟨_, rfl, ?_⟩
        simp only [Option.bind, spec_exec_selection, Option.orElse, shell_exec]
        cases getenv e1 "ARCAN_TERMINAL_ARGV" with
        | none => rfl
        | some inarg => rfl
  · intro hno
    rw [hno] at henv
    have he1 : e1 = shell_defaults c.openbsd e := by
      simpa [putenv_all] using henv.symm
    rw [he1]
    exact ⟨shell_defaults_keeps _ _ _ (by decide) (by decide) (by decide) (by decide),
      shell_defaults_keeps _ _ _ (by decide) (by decide) (by decide) (by decide)⟩

/-- C3 at a concrete input: `login` requested, ARCAN_TERMINAL_EXEC set and a
packed `exec`; the packed command runs through /bin/sh -c. -/
theorem setup_shell_exec_selection_witness :
    ∃ call, setup_shell c3_child c3_child.environ c3_args ["/bin/login", "-p"] =
        SpawnResult.exec call ∧
      (call.kind, call.file, call.argv) =
        (ExecKind.execv, "/bin/sh", some ["/bin/sh", "-c", "/bin/echo hi"]) :=
  (setup_shell_exec_selection c3_child c3_child.environ
    (shell_defaults false c3_child.environ) c3_args ["/bin/login", "-p"] rfl rfl (by decide)).1

/-! ## C4: persistent `close` failure in `arcan_release_resource` -/

/-- When the next `n` calls of `close` fail, the retry loop makes exactly
those calls and leaves `trycount` at -1. -/
theorem close_loop_all_fail (closes : Nat → Bool) (n k : Nat)
    (hfail : ∀ i, i < n → closes (k + i) = false) :
    close_loop closes n k = (-1, k + n) := by
  induction n generalizing k with
  | zero => rfl
  | succ m ih =>
    have h0 : closes k = false := by simpa using hfail 0 (Nat.succ_pos m)
    have hrest : ∀ i, i < m → closes (k + 1 + i) = false := by
      intro i hi
      have := hfail (i + 1) (Nat.succ_lt_succ hi)
      simpa [Nat.add_assoc, Nat.add_comm 1 i] using this
    simp only [close_loop, h0]
    rw [ih (k + 1) hrest]
    simp [Nat.add_assoc, Nat.add_comm 1 m]

/-- The retry loop never calls `close` more than `trycount` times. -/
theorem close_loop_calls_le (closes : Nat → Bool) (n k : Nat) :
    (close_loop closes n k).2 ≤ k + n := by
  induction n generalizing k with
  | zero => simp [close_loop]
  | succ m ih =>
    simp only [close_loop]
    split_ifs
    · simp
    · have := ih (k + 1)
      omega

/-- C4 (divergence): for a record with `fd != -1` whose `close` fails ten
times, `close` is called exactly ten times and the call returns with `fd`,
`start` and `len` left as they are and `source` NULL.  The annotation is
printed from the `source` pointer after it was freed (its text is whatever
`printed` the freed memory yields, not the text the record held), duplicated,
and, when `strdup` gave memory, freed again by the trailing
`if (sptr->source)` block: on return the record holds no annotation. -/
theorem release_persistent_failure (closes : Nat → Bool) (printed : String) (dup_ok : Bool)
    (sptr : data_source) (hfd : sptr.fd ≠ -1) (hfail : ∀ i, i < 10 → closes i = false) :
    (arcan_release_resource closes printed dup_ok sptr).1 =
      Release.returned { sptr with source := Source.null } ∧
    (arcan_release_resource closes printed dup_ok sptr).2 =
      List.replicate 10 (RelEv.close sptr.fd) ++
        [RelEv.free (if sptr.source = Source.tag_resleak then Source.null else sptr.source),
         RelEv.strdup (broken_fd sptr.fd printed)] ++
        (if dup_ok then [RelEv.free (Source.heap (broken_fd sptr.fd printed))] else []) := by
  have hloop : close_loop closes 10 0 = (-1, 10) := by
    have := close_loop_all_fail closes 10 0 (by simpa using hfail)
    simpa using this
  unfold arcan_release_resource
  simp only [hfd, ne_eq, not_false_eq_true, if_true, hloop]
  by_cases hs : sptr.source = Source.tag_resleak <;> cases dup_ok <;> simp [hs]

/-- C4 at a concrete input: descriptor 7 whose `close` never succeeds; the
freed name reads back as "<freed>". -/
theorem release_persistent_failure_witness :
    (arcan_release_resource (fun _ => false) "<freed>" true c4_source).1 =
      Release.returned { c4_source with source := Source.null } ∧
    (arcan_release_resource (fun _ => false) "<freed>" true c4_source).2 =
      List.replicate 10 (RelEv.close 7) ++
        [RelEv.free (Source.heap "font.ttf"),
         RelEv.strdup (broken_fd 7 "<freed>")] ++
        (if true then [RelEv.free (Source.heap (broken_fd 7 "<freed>"))] else []) :=
  release_persistent_failure (fun _ => false) "<freed>" true c4_source (by decide)
    (fun _ _ => rfl)

/-! ## C5: bytes read in one pass reach the VT in order -/

theorem vte_bytes_append (a b : List Ev) : vte_bytes (a ++ b) = vte_bytes a ++ vte_bytes b := by
  induction a with
  | nil => rfl
  | cons e es ih => cases e <;> simp [vte_bytes, ih]

theorem read_bytes_append (fd : Int) (a b : List Ev) :
    read_bytes fd (a ++ b) = read_bytes fd a ++ read_bytes fd b := by
  induction a with
  | nil => rfl
  | cons e es ih =>
    cases e with
    | read fd1 n got =>
      cases got with
      | none => simp [read_bytes, ih]
      | some r =>
        cases r with
        | data bs => by_cases h : fd1 = fd <;> simp [read_bytes, ih, h]
        | error x => simp [read_bytes, ih]
    | _ => simp [read_bytes, ih]

/-- The first `nr` bytes of the buffer after a read are the bytes it returned. -/
theorem read_into_take (dst bs : List Byte) :
    (read_into dst bs).take (bs.take 4096).length = bs.take 4096 := by
  simp [read_into]

/-- What `flush_buffer` adds to the trace: no VT input, and as read bytes the
first `nr` bytes of the buffer when `nr` is positive. -/
theorem flush_buffer_trace (t : Term) (fd : Int) (r : ReadRes) (dst : List Byte) :
    ∃ evs, (flush_buffer t fd r dst).1.trace = t.trace ++ evs ∧
      (∀ e ∈ evs, drain_ev e = true ∧ mutates_vt e = false) ∧ vte_bytes evs = [] ∧
      (0 ≤ (flush_buffer t fd r dst).2.2 →
        read_bytes fd evs =
          (flush_buffer t fd r dst).2.1.take (flush_buffer t fd r dst).2.2.toNat) ∧
      ((flush_buffer t fd r dst).2.2 < 0 → read_bytes fd evs = []) ∧
      (flush_buffer t fd r dst).1.pipe = t.pipe := by
  cases r with
  | error e =>
    by_cases he : e = Errno.EAGAIN ∨ e = Errno.EINTR
    · exact ⟨[Ev.read fd 4096 (some (ReadRes.error e))], by simp [flush_buffer, he],
        by simp [drain_ev, mutates_vt], rfl, by simp [flush_buffer, he], by simp [read_bytes],
        by simp [flush_buffer, he]⟩
    · exact ⟨[Ev.read fd 4096 (some (ReadRes.error e)), Ev.alive_store false,
          Ev.arcan_tui_set_flags_hide_cursor], by simp [flush_buffer, he],
        by simp [drain_ev, mutates_vt], rfl, by simp [flush_buffer, he], by simp [read_bytes],
        by simp [flush_buffer, he]⟩
  | data bs =>
    refine ⟨[Ev.read fd 4096 (some (ReadRes.data (bs.take 4096)))], by simp [flush_buffer],
      by simp [drain_ev, mutates_vt], rfl, ?_, ?_, by simp [flush_buffer]⟩
    · intro _
      simp only [flush_buffer, read_bytes, if_true, List.append_nil, Int.toNat_ofNat]
      exact (read_into_take dst bs).symm
    · intro h
      simp only [flush_buffer] at h
      omega

/-- What `vte_forward` adds to the trace: the bytes as VT input, no read. -/
theorem vte_forward_trace (t : Term) (fd : Int) (buf : List Byte) (nb : Nat) :
    ∃ evs, (vte_forward t buf nb).trace = t.trace ++ evs ∧
      (∀ e ∈ evs, drain_ev e = true) ∧ vte_bytes evs = buf.take nb ∧ read_bytes fd evs = [] := by
  by_cases hp : t.pipe = true
  · exact ⟨[Ev.fwrite_stdout (buf.take nb), Ev.tsm_vte_input (buf.take nb)],
      by simp [vte_forward, hp], by simp [drain_ev], by simp [vte_bytes], by simp [read_bytes]⟩
  · exact ⟨[Ev.tsm_vte_input (buf.take nb)],
      by simp [vte_forward, hp], by simp [drain_ev], by simp [vte_bytes], by simp [read_bytes]⟩

/-- The drain loop forwards to the VT exactly the bytes its reads return, in
order, and makes no other kind of call. -/
theorem drain_loop_trace (fd : Int) (more : Nat → Option ReadRes) (k : Nat) (nr cap : Int)
    (buf : List Byte) (t : Term) :
    ∃ evs, (drain_loop fd more k nr cap buf t).trace = t.trace ++ evs ∧
      (∀ e ∈ evs, drain_ev e = true) ∧ vte_bytes evs = read_bytes fd evs := by
  induction k, nr, cap, buf, t using drain_loop.induct fd more with
  | case1 k nr cap buf t hc hm =>
    rw [drain_loop, if_pos hc, hm]
    exact ⟨[Ev.poll [fd] 0], by simp, by simp [drain_ev], by simp [vte_bytes, read_bytes]⟩
  | case2 k nr cap buf t hc r hm fb hpos ih =>
    rw [drain_loop, if_pos hc, hm]
    simp only []
    rw [if_pos hpos]
    obtain ⟨e1, h1, d1, v1, r1, _, _⟩ := flush_buffer_trace (t.emit (Ev.poll [fd] 0)) fd r buf
    obtain ⟨e2, h2, d2, v2, r2⟩ := vte_forward_trace fb.1 fd fb.2.1 fb.2.2.toNat
    obtain ⟨e3, h3, d3, v3⟩ := ih
    refine ⟨[Ev.poll [fd] 0] ++ e1 ++ e2 ++ e3, ?_, ?_, ?_⟩
    · rw [h3, h2]
      show (flush_buffer (t.emit (Ev.poll [fd] 0)) fd r buf).1.trace ++ e2 ++ e3 = _
      rw [h1]
      simp
    · intro e he
      simp only [List.mem_append, List.mem_singleton] at he
      rcases he with ((rfl | he) | he) | he
      · rfl
      · exact (d1 e he).1
      · exact d2 e he
      · exact d3 e he
    · simp only [vte_bytes_append, read_bytes_append, v1, v2, r2, v3]
      rw [r1 (le_of_lt hpos)]
      simp [vte_bytes, read_bytes]
  | case3 k nr cap buf t hc r hm fb hneg ih =>
    rw [drain_loop, if_pos hc, hm]
    simp only []
    rw [if_neg hneg]
    obtain ⟨e1, h1, d1, v1, r1, r1n, _⟩ := flush_buffer_trace (t.emit (Ev.poll [fd] 0)) fd r buf
    obtain ⟨e3, h3, d3, v3⟩ := ih
    have hzero : read_bytes fd e1 = [] := by
      rcases lt_or_ge (flush_buffer (t.emit (Ev.poll [fd] 0)) fd r buf).2.2 0 with hlt | hge
      · exact r1n hlt
      · have hz : (flush_buffer (t.emit (Ev.poll [fd] 0)) fd r buf).2.2 = 0 :=
          le_antisymm (not_lt.mp hneg) hge
        rw [r1 hge, hz]
        simp
    refine ⟨[Ev.poll [fd] 0] ++ e1 ++ e3, ?_, ?_, ?_⟩
    · rw [h3]
      show (flush_buffer (t.emit (Ev.poll [fd] 0)) fd r buf).1.trace ++ e3 = _
      rw [h1]
      simp
    · intro e he
      simp only [List.mem_append, List.mem_singleton] at he
      rcases he with (rfl | he) | he
      · rfl
      · exact (d1 e he).1
      · exact d3 e he
    · simp only [vte_bytes_append, read_bytes_append, v1, v3, hzero]
      simp [vte_bytes, read_bytes]
  | case4 k nr cap buf t hc =>
    rw [drain_loop, if_neg hc]
    exact ⟨[], by simp, by simp, rfl⟩

theorem flush_buffer_dirtyfd (t : Term) (fd : Int) (r : ReadRes) (dst : List Byte) :
    (flush_buffer t fd r dst).1.dirtyfd = t.dirtyfd := by
  cases r with
  | error e => by_cases he : e = Errno.EAGAIN ∨ e = Errno.EINTR <;> simp [flush_buffer, he]
  | data bs => simp [flush_buffer]

/-- The trace of a pass of `readout_pty` that got past its first read. -/
theorem readout_pty_shape (t : Term) (fd : Int) (env : ReadoutEnv)
    (hok : ¬ (flush_buffer t fd env.first env.stack).2.2 < 0) :
    ∃ e1 e2 e3, (readout_pty t fd env).1.trace =
        t.trace ++ (e1 ++ readout_lock t.dirtyfd env.trylock_ok ++ e2 ++
          [Ev.arcan_tui_dimensions] ++ e3 ++ readout_unlock env.trylock_ok) ∧
      (readout_pty t fd env).2 = true ∧
      (∀ e ∈ e1, drain_ev e = true ∧ mutates_vt e = false) ∧
      (∀ e ∈ e2 ++ e3, drain_ev e = true) ∧
      vte_bytes e1 = [] ∧
      vte_bytes (e2 ++ e3) = read_bytes fd (e1 ++ e2 ++ e3) := by
  obtain ⟨e1, h1, d1, v1, r1, _, _⟩ := flush_buffer_trace t fd env.first env.stack
  have hdf := flush_buffer_dirtyfd t fd env.first env.stack
  have hge : 0 ≤ (flush_buffer t fd env.first env.stack).2.2 := not_lt.mp hok
  cases htl : env.trylock_ok with
  | true =>
    obtain ⟨e2, h2, d2, v2, r2⟩ := vte_forward_trace
      ((flush_buffer t fd env.first env.stack).1.emit (Ev.mutex_trylock Mutex.synch true)) fd
      (flush_buffer t fd env.first env.stack).2.1 (flush_buffer t fd env.first env.stack).2.2.toNat
    obtain ⟨e3, h3, d3, v3⟩ := drain_loop_trace fd env.more 0
      (flush_buffer t fd env.first env.stack).2.2 (to_ssize (env.w * env.h * 4))
      (flush_buffer t fd env.first env.stack).2.1
      ((vte_forward ((flush_buffer t fd env.first env.stack).1.emit
        (Ev.mutex_trylock Mutex.synch true)) (flush_buffer t fd env.first env.stack).2.1
        (flush_buffer t fd env.first env.stack).2.2.toNat).emit Ev.arcan_tui_dimensions)
    refine ⟨e1, e2, e3, ?_, ?_, d1, ?_, v1, ?_⟩
    · simp only [readout_pty, hok, htl, if_false, if_true, emit_trace, h3, h2, h1, readout_lock,
        readout_unlock]
      simp
    · simp [readout_pty, hok]
    · intro e he
      simp only [List.mem_append] at he
      rcases he with he | he
      · exact d2 e he
      · exact d3 e he
    · simp only [vte_bytes_append, read_bytes_append, v2, v3, r2, r1 hge]
      simp
  | false =>
    obtain ⟨e2, h2, d2, v2, r2⟩ := vte_forward_trace
      (((((flush_buffer t fd env.first env.stack).1.emit (Ev.mutex_trylock Mutex.synch false)).emit
        (Ev.mutex_lock Mutex.hold)).emit (Ev.write t.dirtyfd [49])).emit
        (Ev.mutex_lock Mutex.synch)) fd
      (flush_buffer t fd env.first env.stack).2.1 (flush_buffer t fd env.first env.stack).2.2.toNat
    obtain ⟨e3, h3, d3, v3⟩ := drain_loop_trace fd env.more 0
      (flush_buffer t fd env.first env.stack).2.2 (to_ssize (env.w * env.h * 4))
      (flush_buffer t fd env.first env.stack).2.1
      ((vte_forward (((((flush_buffer t fd env.first env.stack).1.emit
        (Ev.mutex_trylock Mutex.synch false)).emit
        (Ev.mutex_lock Mutex.hold)).emit (Ev.write t.dirtyfd [49])).emit
        (Ev.mutex_lock Mutex.synch)) (flush_buffer t fd env.first env.stack).2.1
        (flush_buffer t fd env.first env.stack).2.2.toNat).emit Ev.arcan_tui_dimensions)
    refine ⟨e1, e2, e3, ?_, ?_, d1, ?_, v1, ?_⟩
    · simp only [readout_pty, hok, htl, Bool.false_eq_true, if_false, emit_trace, emit_dirtyfd,
        hdf, readout_lock, readout_unlock]
      rw [h3, emit_trace, h2]
      simp [h1]
    · simp [readout_pty, hok]
    · intro e he
      simp only [List.mem_append] at he
      rcases he with he | he
      · exact d2 e he
      · exact d3 e he
    · simp only [vte_bytes_append, read_bytes_append, v2, v3, r2, r1 hge]
      simp


theorem readout_lock_bytes (fd dirtyfd : Int) (ok : Bool) :
    vte_bytes (readout_lock dirtyfd ok) = [] ∧ read_bytes fd (readout_lock dirtyfd ok) = [] ∧
    Ev.mutex_unlock Mutex.synch ∉ readout_lock dirtyfd ok := by
  cases ok <;> simp [readout_lock, vte_bytes, read_bytes]

theorem drain_ev_not_unlock (es : List Ev) (h : ∀ e ∈ es, drain_ev e = true) :
    Ev.mutex_unlock Mutex.synch ∉ es := by
  intro hmem
  have := h _ hmem
  simp [drain_ev] at this

/-- C5: in every pass of `readout_pty`, whatever the reads return, the bytes
handed to `tsm_vte_input` are exactly the bytes returned by the successful
reads of the PTY descriptor, concatenated in read order; and when the pass
took `synch`, its release is the last call of the pass, after every byte has
been forwarded. -/
theorem readout_pty_forwards_reads (t : Term) (fd : Int) (env : ReadoutEnv) :
    ∃ evs, (readout_pty t fd env).1.trace = t.trace ++ evs ∧
      vte_bytes evs = read_bytes fd evs ∧
      ((readout_pty t fd env).2 = true →
        ∃ pre, evs = pre ++ [Ev.mutex_unlock Mutex.synch] ∧
          Ev.mutex_unlock Mutex.synch ∉ pre ∧ vte_bytes pre = read_bytes fd evs) ∧
      ((readout_pty t fd env).2 = false → read_bytes fd evs = [] ∧ vte_bytes evs = []) := by
  by_cases hok : (flush_buffer t fd env.first env.stack).2.2 < 0
  · obtain ⟨e1, h1, _, v1, _, r1n, _⟩ := flush_buffer_trace t fd env.first env.stack
    exact ⟨e1, by simp [readout_pty, hok, h1], by rw [v1, r1n hok], by simp [readout_pty, hok],
      fun _ => ⟨r1n hok, v1⟩⟩
  · obtain ⟨e1, e2, e3, htr, hret, d1, d23, v1, hbytes⟩ := readout_pty_shape t fd env hok
    obtain ⟨lv, lr, lu⟩ := readout_lock_bytes fd t.dirtyfd env.trylock_ok
    have hu1 : Ev.mutex_unlock Mutex.synch ∉ e1 :=
      drain_ev_not_unlock e1 (fun e he => (d1 e he).1)
    have hu23 : Ev.mutex_unlock Mutex.synch ∉ e2 ++ e3 := drain_ev_not_unlock _ d23
    have hsplit : readout_unlock env.trylock_ok =
        (if env.trylock_ok then [] else [Ev.mutex_unlock Mutex.hold]) ++
          [Ev.mutex_unlock Mutex.synch] := by
      cases env.trylock_ok <;> rfl
    have hall : vte_bytes (e1 ++ readout_lock t.dirtyfd env.trylock_ok ++ e2 ++
          [Ev.arcan_tui_dimensions] ++ e3 ++
          (if env.trylock_ok then [] else [Ev.mutex_unlock Mutex.hold])) =
        read_bytes fd (e1 ++ readout_lock t.dirtyfd env.trylock_ok ++ e2 ++
          [Ev.arcan_tui_dimensions] ++ e3 ++
          (if env.trylock_ok then [] else [Ev.mutex_unlock Mutex.hold])) := by
      simp only [vte_bytes_append, read_bytes_append] at hbytes ⊢
      rw [lv, lr, v1]
      rw [v1] at *
      cases env.trylock_ok <;> simpa [vte_bytes, read_bytes] using hbytes
    refine ⟨_, htr, ?_, ?_, ?_⟩
    · rw [hsplit]
      simp only [← List.append_assoc]
      rw [vte_bytes_append, read_bytes_append, hall]
      simp [vte_bytes, read_bytes]
    · intro _
      refine ⟨e1 ++ readout_lock t.dirtyfd env.trylock_ok ++ e2 ++ [Ev.arcan_tui_dimensions] ++
        e3 ++ (if env.trylock_ok then [] else [Ev.mutex_unlock Mutex.hold]), ?_, ?_, ?_⟩
      · rw [hsplit]
        simp only [List.append_assoc]
      · simp only [List.mem_append, not_or] at hu23 ⊢
        refine ⟨⟨⟨⟨⟨hu1, lu⟩, hu23.1⟩, by simp⟩, hu23.2⟩, ?_⟩
        cases env.trylock_ok <;> simp
      · rw [hsplit]
        simp only [← List.append_assoc]
        rw [read_bytes_append, hall]
        simp [read_bytes]
    · intro hf
      rw [hret] at hf
      exact absurd hf (by decide)

/-! ## C9: VT calls and the `synch` mutex -/

theorem Ext.refl (P : Ev → Bool) (t : Term) : Ext P t t :=
  ⟨[], by simp, by simp⟩

theorem Ext.of_trace_eq {P : Ev → Bool} {t t1 : Term} (h : t1.trace = t.trace) : Ext P t t1 :=
  ⟨[], by simp [h], by simp⟩

theorem Ext.trans {P : Ev → Bool} {a b c : Term} (h1 : Ext P a b) (h2 : Ext P b c) :
    Ext P a c := by
  obtain ⟨e1, t1, p1⟩ := h1
  obtain ⟨e2, t2, p2⟩ := h2
  refine ⟨e1 ++ e2, by rw [t2, t1, List.append_assoc], ?_⟩
  intro e he
  rcases List.mem_append.mp he with h | h
  · exact p1 e h
  · exact p2 e h

theorem Ext.emit {P : Ev → Bool} (t : Term) (e : Ev) (h : P e = true) : Ext P t (t.emit e) :=
  ⟨[e], rfl, by simpa using h⟩

theorem Ext.store_alive {P : Ev → Bool} (t : Term) (b : Bool) (h : P (Ev.alive_store b) = true) :
    Ext P t (t.store_alive b) :=
  ⟨[Ev.alive_store b], rfl, by simpa using h⟩

theorem Ext.mono {P Q : Ev → Bool} {a b : Term} (hPQ : ∀ e, P e = true → Q e = true)
    (h : Ext P a b) : Ext Q a b := by
  obtain ⟨e1, t1, p1⟩ := h
  exact ⟨e1, t1, fun e he => hPQ e (p1 e he)⟩

theorem synch_after_all_nil (h : Bool) : synch_after_all h [] = h := rfl

theorem synch_after_all_cons (h : Bool) (e : Ev) (es : List Ev) :
    synch_after_all h (e :: es) = synch_after_all (synch_after h e) es := rfl

theorem synch_after_all_append (h : Bool) (a b : List Ev) :
    synch_after_all h (a ++ b) = synch_after_all (synch_after_all h a) b := by
  simp [synch_after_all, List.foldl_append]

theorem vt_guarded_append (p : Ev → Bool) (h : Bool) (a b : List Ev) :
    vt_guarded p h (a ++ b) = (vt_guarded p h a && vt_guarded p (synch_after_all h a) b) := by
  induction a generalizing h with
  | nil => simp [vt_guarded, synch_after_all]
  | cons e es ih =>
    show ((!p e || h) && vt_guarded p (synch_after h e) (es ++ b)) = _
    rw [ih]
    simp only [vt_guarded, synch_after_all_cons, Bool.and_assoc]

theorem synch_neutral_after (h : Bool) (e : Ev) (hn : synch_neutral e = true) :
    synch_after h e = h := by
  cases e with
  | mutex_lock m => cases m <;> simp_all [synch_neutral, synch_after]
  | mutex_trylock m ok => cases m <;> simp_all [synch_neutral, synch_after]
  | mutex_unlock m => cases m <;> simp_all [synch_neutral, synch_after]
  | _ => rfl

/-- Calls that leave `synch` alone do not change whether it is held. -/
theorem neutral_after_all (h : Bool) (es : List Ev) (hn : ∀ e ∈ es, synch_neutral e = true) :
    synch_after_all h es = h := by
  induction es generalizing h with
  | nil => rfl
  | cons e es ih =>
    have he := synch_neutral_after h e (hn e (List.mem_cons_self _ _))
    rw [synch_after_all_cons, he]
    exact ih h (fun x hx => hn x (List.mem_cons_of_mem _ hx))

/-- While `synch` is held, calls that leave it alone are all guarded. -/
theorem neutral_guarded_held (p : Ev → Bool) (es : List Ev)
    (hn : ∀ e ∈ es, synch_neutral e = true) : vt_guarded p true es = true := by
  induction es with
  | nil => rfl
  | cons e es ih =>
    have he := synch_neutral_after true e (hn e (List.mem_cons_self _ _))
    simp only [vt_guarded, he, Bool.or_true, Bool.true_and]
    exact ih (fun x hx => hn x (List.mem_cons_of_mem _ hx))

/-- Calls outside `p` that leave `synch` alone are guarded in any state. -/
theorem neutral_guarded_free (p : Ev → Bool) (h : Bool) (es : List Ev)
    (hn : ∀ e ∈ es, synch_neutral e = true ∧ p e = false) : vt_guarded p h es = true := by
  induction es with
  | nil => rfl
  | cons e es ih =>
    have he := synch_neutral_after h e (hn e (List.mem_cons_self _ _)).1
    simp only [vt_guarded, he, (hn e (List.mem_cons_self _ _)).2, Bool.not_false, Bool.true_or,
      Bool.true_and]
    exact ih (fun x hx => hn x (List.mem_cons_of_mem _ hx))

theorem drain_ev_neutral (e : Ev) (h : drain_ev e = true) : synch_neutral e = true := by
  cases e <;> simp_all [drain_ev, synch_neutral]

/-- In a pass of `readout_pty` every call that changes the VT is made with
`synch` held, and `synch` is not held when the pass returns. -/
theorem readout_pty_guarded (t : Term) (fd : Int) (env : ReadoutEnv) :
    ∃ evs, (readout_pty t fd env).1.trace = t.trace ++ evs ∧
      vt_guarded mutates_vt false evs = true ∧ synch_after_all false evs = false := by
  by_cases hok : (flush_buffer t fd env.first env.stack).2.2 < 0
  · obtain ⟨e1, h1, d1, _, _, _, _⟩ := flush_buffer_trace t fd env.first env.stack
    refine ⟨e1, by simp [readout_pty, hok, h1], ?_, ?_⟩
    · exact neutral_guarded_free _ _ _ (fun e he => ⟨drain_ev_neutral e (d1 e he).1, (d1 e he).2⟩)
    · exact neutral_after_all _ _ (fun e he => drain_ev_neutral e (d1 e he).1)
  · obtain ⟨e1, e2, e3, htr, _, d1, d23, _, _⟩ := readout_pty_shape t fd env hok
    have g1 : vt_guarded mutates_vt false e1 = true :=
      neutral_guarded_free _ _ _ (fun e he => ⟨drain_ev_neutral e (d1 e he).1, (d1 e he).2⟩)
    have a1 : synch_after_all false e1 = false :=
      neutral_after_all _ _ (fun e he => drain_ev_neutral e (d1 e he).1)
    have n2 : ∀ e ∈ e2, synch_neutral e = true :=
      fun e he => drain_ev_neutral e (d23 e (List.mem_append_left _ he))
    have n3 : ∀ e ∈ e3, synch_neutral e = true :=
      fun e he => drain_ev_neutral e (d23 e (List.mem_append_right _ he))
    refine ⟨_, htr, ?_, ?_⟩
    · simp only [vt_guarded_append, synch_after_all_append, g1, a1, Bool.true_and]
      cases env.trylock_ok <;>
        simp [readout_lock, readout_unlock, vt_guarded, synch_after, synch_after_all_cons,
          synch_after_all_nil, mutates_vt, neutral_guarded_held _ _ n2,
          neutral_guarded_held _ _ n3, neutral_after_all _ _ n2, neutral_after_all _ _ n3]
    · simp only [synch_after_all_append, a1]
      cases env.trylock_ok <;>
        simp [readout_lock, readout_unlock, synch_after, synch_after_all_cons,
          synch_after_all_nil, neutral_after_all _ _ n2, neutral_after_all _ _ n3]

theorem Safe.stay (p : Ev → Bool) (t : Term) : Safe p t t :=
  ⟨[], by simp, rfl, rfl⟩

theorem Safe.chain {p : Ev → Bool} {a b c : Term} (h1 : Safe p a b) (h2 : Safe p b c) :
    Safe p a c := by
  obtain ⟨e1, t1, g1, a1⟩ := h1
  obtain ⟨e2, t2, g2, a2⟩ := h2
  exact ⟨e1 ++ e2, by rw [t2, t1, List.append_assoc],
    by rw [vt_guarded_append, g1, a1, g2]; rfl, by rw [synch_after_all_append, a1, a2]⟩

theorem Safe.guarded {p : Ev → Bool} {a b c : Term} (h1 : Safe p a b) (h2 : Guarded p b c) :
    Guarded p a c := by
  obtain ⟨e1, t1, g1, a1⟩ := h1
  obtain ⟨e2, t2, g2⟩ := h2
  exact ⟨e1 ++ e2, by rw [t2, t1, List.append_assoc], by rw [vt_guarded_append, g1, a1, g2]; rfl⟩

theorem Safe.toGuarded {p : Ev → Bool} {a b : Term} (h : Safe p a b) : Guarded p a b := by
  obtain ⟨e1, t1, g1, _⟩ := h
  exact ⟨e1, t1, g1⟩

theorem Safe.of_ext {p : Ev → Bool} {a b : Term}
    (h : Ext (fun e => synch_neutral e && !p e) a b) : Safe p a b := by
  obtain ⟨e1, t1, p1⟩ := h
  have hn : ∀ e ∈ e1, synch_neutral e = true ∧ p e = false := by
    intro e he
    have := p1 e he
    simpa using this
  exact ⟨e1, t1, neutral_guarded_free p false e1 hn, neutral_after_all false e1 (fun e he => (hn e he).1)⟩

theorem vt_guarded_mono (p q : Ev → Bool) (hpq : ∀ e, p e = true → q e = true) (h : Bool)
    (es : List Ev) (hg : vt_guarded q h es = true) : vt_guarded p h es = true := by
  induction es generalizing h with
  | nil => rfl
  | cons e es ih =>
    simp only [vt_guarded, Bool.and_eq_true, Bool.or_eq_true, Bool.not_eq_true'] at hg ⊢
    refine ⟨?_, ih _ hg.2⟩
    rcases hg.1 with h1 | h1
    · left
      cases hp : p e
      · rfl
      · rw [hpq e hp] at h1
        exact absurd h1 (by decide)
    · exact Or.inr h1

theorem Ext.emit_of {P : Ev → Bool} {t a : Term} (h : Ext P t a) (e : Ev) (hP : P e = true) :
    Ext P t (a.emit e) :=
  h.trans (Ext.emit a e hP)

theorem Ext.store_of {P : Ev → Bool} {t a : Term} (h : Ext P t a) (b : Bool)
    (hP : P (Ev.alive_store b) = true) : Ext P t (a.store_alive b) :=
  h.trans (Ext.store_alive a b hP)

theorem Ext.set_of {P : Ev → Bool} {t a : Term} (h : Ext P t a) (b : Term)
    (hb : b.trace = a.trace) : Ext P t b :=
  h.trans (Ext.of_trace_eq hb)

theorem pump_tail_ext (t : Term) (p : PumpPoll) : Ext pump_plain t (pump_tail t p) := by
  unfold pump_tail
  split_ifs
  · exact ((Ext.refl _ t).emit_of _ rfl).emit_of _ rfl
  · exact (Ext.refl _ t).emit_of _ rfl
  · exact (Ext.refl _ t).emit_of _ rfl
  · exact Ext.refl _ t

/-- One pass of the pump loop keeps the discipline for `tsm_vte_input`. -/
theorem pump_body_safe (fd : Int) (t : Term) (p : PumpPoll) :
    Safe is_vte_input t (pump_body fd t p).1 := by
  have hro : ∀ t3 : Term, Safe is_vte_input t3 (readout_pty t3 fd p.readout).1 := by
    intro t3
    obtain ⟨evs, h1, h2, h3⟩ := readout_pty_guarded t3 fd p.readout
    exact ⟨evs, h1, vt_guarded_mono _ _ (by intro e he; cases e <;> simp_all [is_vte_input, mutates_vt])
      _ _ h2, h3⟩
  have htail : ∀ t3 : Term, Safe is_vte_input t3 (pump_tail t3 p) :=
    fun t3 => Safe.of_ext (pump_tail_ext t3 p)
  have hpre : ∀ x : Int, Safe is_vte_input t
      (((t.emit Ev.tsm_vte_debugfd).emit (Ev.shl_pty_dispatch t.pty)).emit
        (Ev.poll [fd, t.dirtyfd, p.debugfd, x] 10)) :=
    fun x => Safe.of_ext ((((Ext.refl _ t).emit_of _ rfl).emit_of _ rfl).emit_of _ rfl)
  have hin : ∀ t2 : Term, Safe is_vte_input t2
      (if t.pipe ∧ p.stdin_ev then
        if (p.stdin_data.take 4096).length ≠ 0 then
          (t2.emit (Ev.fread_stdin 4096)).emit (Ev.shl_pty_write t.pty (p.stdin_data.take 4096))
        else t2.emit (Ev.fread_stdin 4096)
      else t2) := by
    intro t2
    split_ifs
    · exact Safe.of_ext (((Ext.refl _ _).emit_of _ rfl).emit_of _ rfl)
    · exact Safe.of_ext ((Ext.refl _ _).emit_of _ rfl)
    · exact Safe.stay _ _
  have hrest : ∀ t3 : Term, Safe is_vte_input t3
      (if p.pty_ev then
        (if (readout_pty t3 fd p.readout).2 then (pump_tail (readout_pty t3 fd p.readout).1 p, false)
          else ((readout_pty t3 fd p.readout).1, true))
      else (pump_tail t3 p, false)).1 := by
    intro t3
    split_ifs
    · exact (hro t3).chain (htail _)
    · exact hro t3
    · exact htail t3
  unfold pump_body
  by_cases hp : p.poll_rv = -1
  · simp only [hp, if_true]
    exact hpre _
  · simp only [hp, if_false]
    exact (hpre _).chain ((hin _).chain (hrest _))

/-- The pump loop keeps the discipline for `tsm_vte_input`. -/
theorem pump_loop_safe (fd : Int) (t : Term) (ps : List PumpPoll) :
    Safe is_vte_input t (pump_loop fd t ps).1 := by
  induction ps generalizing t with
  | nil => exact Safe.stay _ t
  | cons p ps ih =>
    unfold pump_loop
    split_ifs
    · exact pump_body_safe fd t p
    · exact (pump_body_safe fd t p).chain (ih _)
    · exact Safe.stay _ t

/-! ### Callbacks -/

theorem on_u8_ext (t : Term) (u8 : List Byte) (rv : Int) : Ext cb_ev t (on_u8 t u8 rv).1 := by
  unfold on_u8
  split_ifs
  · exact (((Ext.refl _ t).emit_of _ rfl).store_of _ rfl).emit_of _ rfl
  · exact (Ext.refl _ t).emit_of _ rfl

theorem on_resize_ext (t : Term) (neww newh col row : Nat) :
    Ext cb_ev t (on_resize t neww newh col row) := by
  unfold on_resize
  cases h : t.pty with
  | none => exact Ext.of_trace_eq rfl
  | some p => exact ((Ext.refl _ t).emit_of (Ev.shl_pty_resize (some p) col row) rfl).set_of _ rfl

theorem on_exec_state_ext (t : Term) (state : Int) : Ext cb_ev t (on_exec_state t state) := by
  unfold on_exec_state
  split_ifs
  · exact (Ext.refl _ t).emit_of _ rfl
  · exact (Ext.refl _ t).emit_of _ rfl
  · exact (Ext.refl _ t).emit_of _ rfl
  · exact Ext.refl _ t

theorem on_subwindow_ext (t : Term) (d r : Bool) : Ext cb_ev t (on_subwindow t d r).1 := by
  unfold on_subwindow
  split_ifs
  · exact ((Ext.refl _ t).emit_of _ rfl).emit_of _ rfl
  · exact Ext.refl _ t

theorem setup_build_term_ext (t : Term) (env : SpawnEnv) :
    Ext cb_ev t (setup_build_term t env).1 := by
  have h2 : Ext cb_ev t { { t.emit Ev.arcan_tui_dimensions with complete_signal := false }.emit
      (Ev.shl_pty_open env.cols env.rows env.pty_open_rv) with
      pty := env.pty_after, child := env.pty_open_rv } :=
    ((((Ext.refl _ t).emit_of Ev.arcan_tui_dimensions rfl).set_of
      { t.emit Ev.arcan_tui_dimensions with complete_signal := false } rfl).emit_of
      (Ev.shl_pty_open env.cols env.rows env.pty_open_rv) rfl).set_of _ rfl
  unfold setup_build_term
  simp only []
  split_ifs
  · exact h2.emit_of _ rfl
  · exact h2
  · exact ((h2.store_of true rfl).emit_of (Ev.pthread_create env.pthread_create_rv) rfl).store_of
      false rfl
  · exact (h2.store_of true rfl).emit_of (Ev.pthread_create env.pthread_create_rv) rfl

theorem on_reset_ext (t : Term) (state : Int) (env : SpawnEnv) :
    Ext cb_ev t (on_reset t state env).1 := by
  have h1 : Ext cb_ev t ((t.emit Ev.arcan_tui_reset).emit Ev.tsm_vte_hard_reset) :=
    ((Ext.refl _ t).emit_of _ rfl).emit_of _ rfl
  have h2 : ∀ t1 : Term, Ext cb_ev t1
      (if t1.alive then (on_exec_state t1 2).store_alive false else t1) := by
    intro t1
    split_ifs
    · exact (on_exec_state_ext t1 2).store_of _ rfl
    · exact Ext.refl _ _
  have h3 : ∀ t2 : Term, Ext cb_ev t2
      (if !t2.die_on_term then t2.emit (Ev.arcan_tui_progress 0) else t2) := by
    intro t2
    split_ifs
    · exact (Ext.refl _ _).emit_of _ rfl
    · exact Ext.refl _ _
  unfold on_reset
  by_cases h0 : state = 0
  · simp only [h0, if_true]
    exact h1
  · by_cases hs : state = 1
    · simp only [hs, if_true, one_ne_zero, if_false]
      exact (h1.trans ((h2 _).trans (h3 _))).trans (setup_build_term_ext _ env)
    · simp only [h0, hs, if_false]
      exact Ext.refl _ t

theorem dispatch_ext (t : Term) (c : Callback) : Ext cb_ev t (dispatch t c).1 := by
  cases c with
  | u8 bs rv => exact on_u8_ext t bs rv
  | key k sc m sub => exact (Ext.refl _ t).emit_of _ rfl
  | mouse_motion r x y m =>
    show Ext cb_ev t (on_mouse_motion t r x y m)
    unfold on_mouse_motion
    split_ifs
    · exact Ext.refl _ t
    · exact (Ext.refl _ t).emit_of _ rfl
  | mouse_button b a m => exact (Ext.refl _ t).emit_of _ rfl
  | paste str c => exact (Ext.refl _ t).emit_of _ rfl
  | resize w h c r => exact on_resize_ext t w h c r
  | subwindow d r => exact on_subwindow_ext t d r
  | exec_state st => exact on_exec_state_ext t st
  | reset st env => exact on_reset_ext t st env

theorem tui_process_ext (t : Term) (es : List RenderEv) : Ext cb_ev t (tui_process t es).1 := by
  induction es generalizing t with
  | nil => exact Ext.refl _ t
  | cons e es ih =>
    cases e with
    | pump_dead =>
      show Ext cb_ev t (tui_process { t with alive := false } es).1
      exact (Ext.of_trace_eq rfl).trans (ih { t with alive := false })
    | cb c =>
      unfold tui_process
      split_ifs
      · exact dispatch_ext t c
      · exact (dispatch_ext t c).trans (ih _)

theorem render_tail_trace (t : Term) (s : RenderStep) :
    (render_tail t s).trace = t.trace ++ (render_marker t ++
      [Ev.arcan_tui_refresh, Ev.mutex_unlock Mutex.synch] ++ render_handshake t.signalfd s.ok) := by
  unfold render_tail render_marker render_handshake
  split_ifs <;> simp

theorem render_process_trace (t : Term) (s : RenderStep) :
    ∃ cbs, (render_process t s).1.trace =
        t.trace ++ ([Ev.mutex_lock Mutex.synch, Ev.arcan_tui_process] ++ cbs) ∧
      ∀ e ∈ cbs, cb_ev e = true := by
  obtain ⟨cbs, h1, h2⟩ := tui_process_ext
    ((t.emit (Ev.mutex_lock Mutex.synch)).emit Ev.arcan_tui_process) s.events
  exact ⟨cbs, by rw [render_process, h1]; simp, h2⟩

theorem cb_ev_neutral (e : Ev) (h : cb_ev e = true) : synch_neutral e = true := by
  simp only [cb_ev, Bool.and_eq_true] at h
  exact h.1

/-- From the lock at the top of a pass to the return of `arcan_tui_process`
every call is made with `synch` held. -/
theorem render_process_guarded (t : Term) (s : RenderStep) :
    ∃ evs, (render_process t s).1.trace = t.trace ++ evs ∧
      vt_guarded render_locked false evs = true ∧ synch_after_all false evs = true := by
  obtain ⟨cbs, h1, h2⟩ := render_process_trace t s
  have hn : ∀ e ∈ cbs, synch_neutral e = true := fun e he => cb_ev_neutral e (h2 e he)
  refine ⟨_, h1, ?_, ?_⟩
  · simp [vt_guarded, render_locked, render_unlocked, synch_after,
      neutral_guarded_held _ _ hn]
  · simp [synch_after_all_cons, synch_after, neutral_after_all _ _ hn]

/-- A complete pass of the render loop keeps the discipline and ends with
`synch` released. -/
theorem render_pass_safe (t : Term) (s : RenderStep) :
    Safe render_locked t (render_tail (render_process t s).1 s) := by
  obtain ⟨evs, h1, g1, a1⟩ := render_process_guarded t s
  refine ⟨evs ++ (render_marker (render_process t s).1 ++
      [Ev.arcan_tui_refresh, Ev.mutex_unlock Mutex.synch] ++
      render_handshake (render_process t s).1.signalfd s.ok), ?_, ?_, ?_⟩
  · rw [render_tail_trace, h1, List.append_assoc]
  · rw [vt_guarded_append, g1, a1]
    unfold render_marker render_handshake
    split_ifs <;> rfl
  · rw [synch_after_all_append, a1]
    unfold render_marker render_handshake
    split_ifs <;> rfl

/-- The render loop makes every call with `synch` held, except taking `synch`
itself, the handshake after its release and the final destroy. -/
theorem render_loop_guarded (t : Term) (steps : List RenderStep) :
    Guarded render_locked t (render_loop t steps).1 := by
  have hdestroy : ∀ a : Term, Guarded render_locked a (a.emit (Ev.arcan_tui_destroy none)) :=
    fun a => ⟨[Ev.arcan_tui_destroy none], rfl, rfl⟩
  induction steps generalizing t with
  | nil =>
    unfold render_loop
    split_ifs
    · exact (Safe.stay _ t).toGuarded
    · exact hdestroy t
  | cons s ss ih =>
    obtain ⟨evs, h1, g1, a1⟩ := render_process_guarded t s
    unfold render_loop
    split_ifs
    · exact ⟨evs, h1, g1⟩
    · exact ⟨evs ++ [Ev.arcan_tui_destroy none], by simp [h1],
        by rw [vt_guarded_append, g1, a1]; rfl⟩
    · exact (render_pass_safe t s).guarded (ih _)
    · exact hdestroy t

theorem mutates_vt_locked (e : Ev) (h : mutates_vt e = true) : render_locked e = true := by
  cases e <;> simp_all [mutates_vt, render_locked, render_unlocked]

/-- C9 (amended): in the pump thread every `tsm_vte_input` call is made while
the thread holds `synch`; in the render thread every call is made while the
thread holds `synch`, except taking `synch`, the handshake on `hold` and
`signalfd` after its release and the final destroy, so every call of every
input callback and of reset, and with them every call that changes the VT, is
made under `synch`.  The `tsm_vte_update_debug` call of `pump_pty` is not
covered. -/
theorem vt_calls_under_synch (t : Term) (ps : List PumpPoll) (t1 : Term)
    (steps : List RenderStep) :
    (∃ evs, (pump_pty t ps).1.trace = t.trace ++ evs ∧
      vt_guarded is_vte_input false evs = true) ∧
    (∃ evs, (render_loop t1 steps).1.trace = t1.trace ++ evs ∧
      vt_guarded render_locked false evs = true ∧ vt_guarded mutates_vt false evs = true) := by
  obtain ⟨evs, h1, g1, _⟩ := pump_loop_safe (shl_pty_get_fd t.pty) t ps
  obtain ⟨ev2, h2, g2⟩ := render_loop_guarded t1 steps
  exact ⟨⟨evs, h1, g1⟩, ev2, h2, g2, vt_guarded_mono _ _ mutates_vt_locked _ _ g2⟩

/-- C9 (counterexample): when the debug descriptor is ready, `pump_pty` calls
`tsm_vte_update_debug` without holding `synch`. -/
theorem pump_debug_update_unguarded :
    (pump_pty live_term [c9_poll]).1.trace =
      [Ev.tsm_vte_debugfd, Ev.shl_pty_dispatch (some { fd := 3 }), Ev.poll [3, 0, 5, -1] 10,
       Ev.tsm_vte_update_debug] ∧
    vt_guarded mutates_vt false (pump_pty live_term [c9_poll]).1.trace = false := by
  constructor <;> decide

/-! ## C7: hard reset -/

/-- C7 (counterexample): a hard reset whose `shl_pty_open` fails sends SIGHUP,
stores `alive = false`, destroys the display and returns with `alive` false:
`alive` never goes from false to true. -/
theorem hard_reset_open_fails :
    (on_reset live_term 1 spawn_fail).1.alive = false ∧
    (on_reset live_term 1 spawn_fail).1.trace =
      [Ev.arcan_tui_reset, Ev.tsm_vte_hard_reset,
       Ev.shl_pty_signal (some { fd := 3 }) Signal.SIGHUP, Ev.alive_store false,
       Ev.arcan_tui_dimensions, Ev.shl_pty_open 80 24 (-1),
       Ev.arcan_tui_destroy (some "Shell process died unexpectedly")] ∧
    rises (alive_history live_term.alive (on_reset live_term 1 spawn_fail).1.trace) = 0 := by
  refine ⟨by decide, by decide, by decide⟩

/-- C7 (amended): for every terminal state, a hard reset in the terminal
process (`shl_pty_open` does not return 0) makes exactly the calls of
`hard_reset_calls`, in that order, clears `complete_signal` and takes `child`
and `pty` from `shl_pty_open`.  When `shl_pty_open` succeeds and
`pthread_create` returns 0, one pump thread is started, `alive` is true
afterwards and over the handling `alive` went from false to true exactly
once.  When `shl_pty_open` succeeds and `pthread_create` returns -1, `alive`
is stored true and then false again, and no thread is started.  When
`shl_pty_open` fails, the display is destroyed, `setup_build_term` returns
false, no thread is started, `alive` is false afterwards and never went from
false to true. -/
theorem hard_reset_respawns (t : Term) (env : SpawnEnv) (hparent : env.pty_open_rv ≠ 0) :
    (on_reset t 1 env).1.trace = t.trace ++ hard_reset_calls t env ∧
    (on_reset t 1 env).1.complete_signal = false ∧
    (on_reset t 1 env).1.child = env.pty_open_rv ∧
    (on_reset t 1 env).1.pty = env.pty_after ∧
    (0 < env.pty_open_rv → env.pthread_create_rv = 0 →
      (on_reset t 1 env).2 = some (SpawnResult.ret true) ∧
      (on_reset t 1 env).1.alive = true ∧
      (hard_reset_calls t env).count (Ev.pthread_create 0) = 1 ∧
      rises (alive_history t.alive (hard_reset_calls t env)) = 1) ∧
    (0 < env.pty_open_rv → env.pthread_create_rv = -1 →
      (on_reset t 1 env).2 = some (SpawnResult.ret true) ∧
      (on_reset t 1 env).1.alive = false ∧
      (hard_reset_calls t env).count (Ev.pthread_create 0) = 0 ∧
      rises (alive_history t.alive (hard_reset_calls t env)) = 1) ∧
    (env.pty_open_rv < 0 →
      (on_reset t 1 env).2 = some (SpawnResult.ret false) ∧
      (on_reset t 1 env).1.alive = false ∧
      Ev.arcan_tui_destroy (some "Shell process died unexpectedly") ∈ hard_reset_calls t env ∧
      (hard_reset_calls t env).count (Ev.pthread_create 0) = 0 ∧
      rises (alive_history t.alive (hard_reset_calls t env)) = 0) := by
  refine ⟨?_, ?_, ?_, ?_, ?_, ?_, ?_⟩
  · by_cases h1 : env.pty_open_rv < 0
    · cases ha : t.alive <;> cases hd : t.die_on_term <;>
        simp [on_reset, setup_build_term, on_exec_state, hard_reset_calls, h1, ha, hd,
          Term.emit, Term.store_alive]
    · by_cases h2 : env.pthread_create_rv = -1 <;> cases ha : t.alive <;>
        cases hd : t.die_on_term <;>
        simp [on_reset, setup_build_term, on_exec_state, hard_reset_calls, h1, h2, hparent, ha,
          hd, Term.emit, Term.store_alive]
  · by_cases h1 : env.pty_open_rv < 0 <;> by_cases h2 : env.pthread_create_rv = -1 <;>
      simp [on_reset, setup_build_term, h1, h2, hparent, Term.emit, Term.store_alive]
  · by_cases h1 : env.pty_open_rv < 0 <;> by_cases h2 : env.pthread_create_rv = -1 <;>
      simp [on_reset, setup_build_term, h1, h2, hparent, Term.emit, Term.store_alive]
  · by_cases h1 : env.pty_open_rv < 0 <;> by_cases h2 : env.pthread_create_rv = -1 <;>
      simp [on_reset, setup_build_term, h1, h2, hparent, Term.emit, Term.store_alive]
  · intro hpos hthr
    have h1 : ¬ env.pty_open_rv < 0 := by omega
    cases ha : t.alive <;> cases hd : t.die_on_term <;>
      simp [on_reset, setup_build_term, on_exec_state, hard_reset_calls, h1, hparent, hthr, ha,
        hd, Term.emit, Term.store_alive, alive_history, rises]
  · intro hpos hthr
    have h1 : ¬ env.pty_open_rv < 0 := by omega
    cases ha : t.alive <;> cases hd : t.die_on_term <;>
      simp [on_reset, setup_build_term, on_exec_state, hard_reset_calls, h1, hparent, hthr, ha,
        hd, Term.emit, Term.store_alive, alive_history, rises]
  · intro h1
    cases ha : t.alive <;> cases hd : t.die_on_term <;>
      simp [on_reset, setup_build_term, on_exec_state, hard_reset_calls, h1, ha, hd,
        Term.emit, Term.store_alive, alive_history, rises]

/-- C7 (amended) at concrete inputs: a live terminal is reset and respawned;
the same reset with a failing `pthread_create`; the same reset with a failing
`shl_pty_open`. -/
theorem hard_reset_respawns_witness :
    ((on_reset live_term 1 spawn_ok).1.alive = true ∧
      rises (alive_history live_term.alive (hard_reset_calls live_term spawn_ok)) = 1) ∧
    ((on_reset live_term 1 spawn_no_thread).1.alive = false ∧
      rises (alive_history live_term.alive (hard_reset_calls live_term spawn_no_thread)) = 1) ∧
    ((on_reset live_term 1 spawn_fail).1.alive = false ∧
      rises (alive_history live_term.alive (hard_reset_calls live_term spawn_fail)) = 0) :=
  ⟨⟨((hard_reset_respawns live_term spawn_ok (by decide)).2.2.2.2.1 (by decide) rfl).2.1,
    ((hard_reset_respawns live_term spawn_ok (by decide)).2.2.2.2.1 (by decide) rfl).2.2.2⟩,
   ⟨((hard_reset_respawns live_term spawn_no_thread (by decide)).2.2.2.2.2.1 (by decide) rfl).2.1,
    ((hard_reset_respawns live_term spawn_no_thread (by decide)).2.2.2.2.2.1
      (by decide) rfl).2.2.2⟩,
   ⟨((hard_reset_respawns live_term spawn_fail (by decide)).2.2.2.2.2.2 (by decide)).2.1,
    ((hard_reset_respawns live_term spawn_fail (by decide)).2.2.2.2.2.2 (by decide)).2.2.2.2⟩⟩

/-! ## C8: a nil PTY handle -/

theorem progress_done_append (a b : List Ev) :
    progress_done (a ++ b) = progress_done a + progress_done b := by
  simp [progress_done, List.count_append]

theorem progress_done_cb (es : List Ev) (h : ∀ e ∈ es, cb_ev e = true) : progress_done es = 0 := by
  unfold progress_done
  rw [List.count_eq_zero]
  intro hmem
  have := h _ hmem
  simp [cb_ev] at this

theorem setup_build_term_die_on_term (t : Term) (env : SpawnEnv) :
    (setup_build_term t env).1.die_on_term = t.die_on_term := by
  unfold setup_build_term
  simp only []
  split_ifs <;> rfl

theorem on_exec_state_fields (t : Term) (state : Int) :
    (on_exec_state t state).die_on_term = t.die_on_term ∧
    (on_exec_state t state).complete_signal = t.complete_signal ∧
    (on_exec_state t state).alive = t.alive := by
  unfold on_exec_state
  split_ifs <;> exact ⟨rfl, rfl, rfl⟩

theorem dispatch_die_on_term (t : Term) (c : Callback) :
    (dispatch t c).1.die_on_term = t.die_on_term := by
  cases c with
  | u8 bs rv =>
    show (on_u8 t bs rv).1.die_on_term = _
    unfold on_u8
    split_ifs <;> rfl
  | key k sc m sub => rfl
  | mouse_motion r x y m =>
    show (on_mouse_motion t r x y m).die_on_term = _
    unfold on_mouse_motion
    split_ifs <;> rfl
  | mouse_button b a m => rfl
  | paste str c => rfl
  | resize w h c r =>
    show (on_resize t w h c r).die_on_term = _
    unfold on_resize
    cases t.pty <;> rfl
  | subwindow d r =>
    show (on_subwindow t d r).1.die_on_term = _
    unfold on_subwindow
    split_ifs <;> rfl
  | exec_state st => exact (on_exec_state_fields t st).1
  | reset st env =>
    show (on_reset t st env).1.die_on_term = _
    unfold on_reset
    split_ifs
    · rfl
    · rw [setup_build_term_die_on_term]
      split_ifs <;> simp [(on_exec_state_fields _ 2).1]
    · rfl

/-- Outside a hard reset a callback comes back and leaves `complete_signal`
as it is. -/
theorem dispatch_soft (t : Term) (c : Callback) (h : is_hard_reset (RenderEv.cb c) = false) :
    SpawnResult.halts (dispatch t c).2 = false ∧
    (dispatch t c).1.complete_signal = t.complete_signal := by
  cases c with
  | u8 bs rv =>
    refine ⟨rfl, ?_⟩
    show (on_u8 t bs rv).1.complete_signal = _
    unfold on_u8
    split_ifs <;> rfl
  | key k sc m sub => exact ⟨rfl, rfl⟩
  | mouse_motion r x y m =>
    refine ⟨rfl, ?_⟩
    show (on_mouse_motion t r x y m).complete_signal = _
    unfold on_mouse_motion
    split_ifs <;> rfl
  | mouse_button b a m => exact ⟨rfl, rfl⟩
  | paste str c => exact ⟨rfl, rfl⟩
  | resize w hh c r =>
    refine ⟨rfl, ?_⟩
    show (on_resize t w hh c r).complete_signal = _
    unfold on_resize
    cases t.pty <;> rfl
  | subwindow d r =>
    refine ⟨rfl, ?_⟩
    show (on_subwindow t d r).1.complete_signal = _
    unfold on_subwindow
    split_ifs <;> rfl
  | exec_state st => exact ⟨rfl, (on_exec_state_fields t st).2.1⟩
  | reset st env =>
    have hs : ¬ st = 1 := by simpa [is_hard_reset] using h
    show SpawnResult.halts (on_reset t st env).2 = false ∧
      (on_reset t st env).1.complete_signal = _
    unfold on_reset
    by_cases h0 : st = 0
    · rw [if_pos h0]
      exact ⟨rfl, rfl⟩
    · rw [if_neg h0, if_neg hs]
      exact ⟨rfl, rfl⟩

/-- Without a hard reset, `arcan_tui_process` comes back with `die_on_term`
and `complete_signal` as they were. -/
theorem tui_process_soft (t : Term) (es : List RenderEv)
    (h : ∀ e ∈ es, is_hard_reset e = false) :
    SpawnResult.halts (tui_process t es).2 = false ∧
    (tui_process t es).1.complete_signal = t.complete_signal ∧
    (tui_process t es).1.die_on_term = t.die_on_term := by
  induction es generalizing t with
  | nil => exact ⟨rfl, rfl, rfl⟩
  | cons e es ih =>
    have hrest : ∀ x ∈ es, is_hard_reset x = false := fun x hx => h x (List.mem_cons_of_mem _ hx)
    cases e with
    | pump_dead => exact ih { t with alive := false } hrest
    | cb c =>
      obtain ⟨hh, hc⟩ := dispatch_soft t c (h _ (List.mem_cons_self _ _))
      unfold tui_process
      rw [if_neg (by simp [hh])]
      obtain ⟨i1, i2, i3⟩ := ih (dispatch t c).1 hrest
      exact ⟨i1, by rw [i2, hc], by rw [i3, dispatch_die_on_term]⟩

theorem render_process_soft (t : Term) (s : RenderStep)
    (h : ∀ e ∈ s.events, is_hard_reset e = false) :
    SpawnResult.halts (render_process t s).2 = false ∧
    (render_process t s).1.complete_signal = t.complete_signal ∧
    (render_process t s).1.die_on_term = t.die_on_term := by
  unfold render_process
  exact tui_process_soft _ s.events h

theorem render_tail_fields (t : Term) (s : RenderStep) :
    (render_tail t s).die_on_term = t.die_on_term ∧
    (render_tail t s).complete_signal =
      (t.complete_signal || (!t.alive && !t.die_on_term)) := by
  cases h1 : t.alive <;> cases h2 : t.die_on_term <;> cases h3 : t.complete_signal <;>
    cases h4 : s.ok <;> cases h5 : s.late_dead <;> simp [render_tail, h1, h2, h3, h4, h5]

/-- With `keep_alive`, a pass without hard reset and without fatal error runs
to its end and the loop goes on from there. -/
theorem render_loop_pass (t : Term) (s : RenderStep) (ss : List RenderStep)
    (hk : t.die_on_term = false) (hs : ∀ e ∈ s.events, is_hard_reset e = false)
    (hok : ¬ s.errc < TUI_ERRC_OK) :
    render_loop t (s :: ss) = render_loop (render_tail (render_process t s).1 s) ss := by
  have hh := (render_process_soft t s hs).1
  rw [render_loop]
  simp [hk, hh, hok]

/-- The calls of one complete pass carry the marker exactly when `alive` is
false and `complete_signal` clear as `arcan_tui_process` returns. -/
theorem render_pass_marker (t : Term) (s : RenderStep) (hk : t.die_on_term = false)
    (hs : ∀ e ∈ s.events, is_hard_reset e = false) :
    ∃ evs, (render_tail (render_process t s).1 s).trace = t.trace ++ evs ∧
      progress_done evs =
        (if !(render_process t s).1.alive && !t.complete_signal then 1 else 0) ∧
      (render_tail (render_process t s).1 s).complete_signal =
        (t.complete_signal || !(render_process t s).1.alive) ∧
      (render_tail (render_process t s).1 s).die_on_term = false := by
  obtain ⟨_, hc, hd⟩ := render_process_soft t s hs
  obtain ⟨cbs, htr, hcb⟩ := render_process_trace t s
  obtain ⟨f1, f2⟩ := render_tail_fields (render_process t s).1 s
  refine ⟨[Ev.mutex_lock Mutex.synch, Ev.arcan_tui_process] ++ cbs ++
    (render_marker (render_process t s).1 ++ [Ev.arcan_tui_refresh, Ev.mutex_unlock Mutex.synch] ++
      render_handshake (render_process t s).1.signalfd s.ok), ?_, ?_, ?_, ?_⟩
  · rw [render_tail_trace, htr]
    simp
  · simp only [progress_done_append, progress_done_cb cbs hcb]
    unfold render_marker render_handshake
    rw [hc, hd, hk]
    cases (render_process t s).1.alive <;> cases t.complete_signal <;> cases s.ok <;> rfl
  · rw [f2, hc, hd, hk]
    simp
  · rw [f1, hd, hk]

/-- Over any run of the render loop with `keep_alive` and without hard reset,
`complete_signal` stays set once set, and the marker is emitted once if
`complete_signal` went from clear to set and not at all otherwise. -/
theorem render_loop_marker (t : Term) (steps : List RenderStep) (hk : t.die_on_term = false)
    (hs : ∀ s ∈ steps, ∀ e ∈ s.events, is_hard_reset e = false) :
    ∃ evs, (render_loop t steps).1.trace = t.trace ++ evs ∧
      (t.complete_signal = true → (render_loop t steps).1.complete_signal = true) ∧
      progress_done evs =
        (if (render_loop t steps).1.complete_signal && !t.complete_signal then 1 else 0) := by
  induction steps generalizing t with
  | nil =>
    refine ⟨[], ?_, ?_, ?_⟩
    · simp [render_loop, hk]
    · simp [render_loop, hk]
    · simp [render_loop, hk, progress_done]
  | cons s ss ih =>
    have hs0 := hs s (List.mem_cons_self _ _)
    have hss : ∀ x ∈ ss, ∀ e ∈ x.events, is_hard_reset e = false :=
      fun x hx => hs x (List.mem_cons_of_mem _ hx)
    by_cases hok : s.errc < TUI_ERRC_OK
    · obtain ⟨hh, hc, _⟩ := render_process_soft t s hs0
      obtain ⟨cbs, htr, hcb⟩ := render_process_trace t s
      have hloop : render_loop t (s :: ss) =
          ((render_process t s).1.emit (Ev.arcan_tui_destroy none), RenderStatus.exited) := by
        rw [render_loop]
        simp [hk, hh, hok]
      rw [hloop]
      refine ⟨[Ev.mutex_lock Mutex.synch, Ev.arcan_tui_process] ++ cbs ++
        [Ev.arcan_tui_destroy none], by simp [htr], by simp [hc], ?_⟩
      simp only [progress_done_append, progress_done_cb cbs hcb, emit_complete_signal, hc]
      cases t.complete_signal <;> rfl
    · obtain ⟨e1, h1, c1, cs1, d1⟩ := render_pass_marker t s hk hs0
      obtain ⟨e2, h2, l2, c2⟩ := ih (render_tail (render_process t s).1 s) d1 hss
      rw [render_loop_pass t s ss hk hs0 hok]
      refine ⟨e1 ++ e2, by rw [h2, h1, List.append_assoc], ?_, ?_⟩
      · intro htc
        exact l2 (by rw [cs1, htc]; rfl)
      · rw [progress_done_append, c1, c2]
        rw [cs1] at l2 ⊢
        cases ha : (render_process t s).1.alive <;> cases hc : t.complete_signal <;>
          cases hf : (render_loop (render_tail (render_process t s).1 s) ss).1.complete_signal <;>
          simp_all

/-- The loop over two runs of passes is the loop over the second from where
the first stopped, as long as the first left the loop running. -/
theorem render_loop_append (t : Term) (a b : List RenderStep)
    (hk : t.die_on_term = false)
    (hs : ∀ s ∈ a, ∀ e ∈ s.events, is_hard_reset e = false)
    (hok : ∀ s ∈ a, ¬ s.errc < TUI_ERRC_OK) :
    render_loop t (a ++ b) = render_loop (render_loop t a).1 b ∧
    (render_loop t a).1.die_on_term = false := by
  induction a generalizing t with
  | nil => simp [render_loop, hk]
  | cons s ss ih =>
    have hs0 := hs s (List.mem_cons_self _ _)
    have hok0 := hok s (List.mem_cons_self _ _)
    obtain ⟨_, _, _, _, d1⟩ := render_pass_marker t s hk hs0
    rw [List.cons_append, render_loop_pass t s _ hk hs0 hok0,
      render_loop_pass t s _ hk hs0 hok0]
    exact ih _ d1 (fun x hx => hs x (List.mem_cons_of_mem _ hx))
      (fun x hx => hok x (List.mem_cons_of_mem _ hx))

/-- As long as every pass sees `alive` true when `arcan_tui_process` returns,
`complete_signal` stays clear. -/
theorem render_loop_live (t : Term) (pre : List RenderStep) (hk : t.die_on_term = false)
    (hc : t.complete_signal = false)
    (hs : ∀ s ∈ pre, ∀ e ∈ s.events, is_hard_reset e = false)
    (hok : ∀ s ∈ pre, ¬ s.errc < TUI_ERRC_OK)
    (hlive : ∀ p1 y p2, pre = p1 ++ y :: p2 →
      (render_process (render_loop t p1).1 y).1.alive = true) :
    (render_loop t pre).1.complete_signal = false := by
  induction pre generalizing t with
  | nil => simp [render_loop, hk, hc]
  | cons s ss ih =>
    have hs0 := hs s (List.mem_cons_self _ _)
    have hok0 := hok s (List.mem_cons_self _ _)
    obtain ⟨_, _, _, cs1, d1⟩ := render_pass_marker t s hk hs0
    have ha : (render_process t s).1.alive = true := by
      have := hlive [] s ss rfl
      simpa [render_loop, hk] using this
    rw [render_loop_pass t s ss hk hs0 hok0]
    refine ih _ d1 (by rw [cs1, hc, ha]; rfl) (fun x hx => hs x (List.mem_cons_of_mem _ hx))
      (fun x hx => hok x (List.mem_cons_of_mem _ hx)) ?_
    intro p1 y p2 hp
    have := hlive (s :: p1) y p2 (by rw [hp]; rfl)
    rwa [render_loop_pass t s p1 hk hs0 hok0] at this

/-- Within a cycle `complete_signal` is a latch: once it is set after some
passes it is set after any further passes. -/
theorem render_loop_latch (t : Term) (a b : List RenderStep) (hk : t.die_on_term = false)
    (hs : ∀ s ∈ a ++ b, ∀ e ∈ s.events, is_hard_reset e = false)
    (hset : (render_loop t a).1.complete_signal = true) :
    (render_loop t (a ++ b)).1.complete_signal = true := by
  induction a generalizing t with
  | nil =>
    have ht : t.complete_signal = true := by simpa [render_loop, hk] using hset
    obtain ⟨_, _, l, _⟩ := render_loop_marker t b hk (by simpa using hs)
    simpa using l ht
  | cons s ss ih =>
    have hs0 := hs s (by simp)
    have hrest : ∀ x ∈ ss ++ b, ∀ e ∈ x.events, is_hard_reset e = false :=
      fun x hx => hs x (by
        rw [List.cons_append]
        exact List.mem_cons_of_mem _ hx)
    by_cases hok : s.errc < TUI_ERRC_OK
    · have hh := (render_process_soft t s hs0).1
      have h1 : ∀ l, render_loop t (s :: l) =
          ((render_process t s).1.emit (Ev.arcan_tui_destroy none), RenderStatus.exited) := by
        intro l
        rw [render_loop]
        simp [hk, hh, hok]
      rw [List.cons_append, h1]
      rw [h1] at hset
      exact hset
    · obtain ⟨_, _, _, _, d1⟩ := render_pass_marker t s hk hs0
      rw [render_loop_pass t s ss hk hs0 hok] at hset
      rw [List.cons_append, render_loop_pass t s _ hk hs0 hok]
      exact ih _ d1 hrest hset

/-- C6: with `keep_alive` (`die_on_term` false) and `complete_signal` clear as
`setup_build_term` leaves it, over passes of the render loop without a hard
reset: (1) for any passes `steps`, progress(1.0) is emitted at most once, and
exactly once if and only if `complete_signal` ends set, and `complete_signal`
once set after some of the passes stays set after the rest; (2) if in every
pass of `pre` `alive` is true when `arcan_tui_process` returns, no pass of
`pre` or `x` reports a fatal error and `alive` is false when
`arcan_tui_process` returns in `x`, then no marker is emitted during `pre`,
exactly one during `x`, none during any later passes `post`, and
`complete_signal` is set from `x` on. -/
theorem completion_marker_once (t : Term) (pre : List RenderStep) (x : RenderStep)
    (post steps : List RenderStep) (hk : t.die_on_term = false)
    (hc : t.complete_signal = false)
    (hcycle : ∀ s ∈ steps, ∀ e ∈ s.events, is_hard_reset e = false)
    (hsoft : ∀ s ∈ pre ++ x :: post, ∀ e ∈ s.events, is_hard_reset e = false)
    (hok : ∀ s ∈ pre ++ [x], ¬ s.errc < TUI_ERRC_OK)
    (hlive : ∀ p1 y p2, pre = p1 ++ y :: p2 →
      (render_process (render_loop t p1).1 y).1.alive = true)
    (hdead : (render_process (render_loop t pre).1 x).1.alive = false) :
    (∃ evs, (render_loop t steps).1.trace = t.trace ++ evs ∧ progress_done evs ≤ 1 ∧
      (progress_done evs = 1 ↔ (render_loop t steps).1.complete_signal = true) ∧
      (∀ a b, steps = a ++ b → (render_loop t a).1.complete_signal = true →
        (render_loop t steps).1.complete_signal = true)) ∧
    (∃ e1 e2 e3, (render_loop t pre).1.trace = t.trace ++ e1 ∧
      (render_loop t (pre ++ [x])).1.trace = t.trace ++ e1 ++ e2 ∧
      (render_loop t (pre ++ x :: post)).1.trace = t.trace ++ e1 ++ e2 ++ e3 ∧
      progress_done e1 = 0 ∧ progress_done e2 = 1 ∧ progress_done e3 = 0 ∧
      (render_loop t (pre ++ [x])).1.complete_signal = true ∧
      (render_loop t (pre ++ x :: post)).1.complete_signal = true) := by
  constructor
  · obtain ⟨evs, h1, _, c1⟩ := render_loop_marker t steps hk hcycle
    refine ⟨evs, h1, ?_, ?_, ?_⟩
    · rw [c1]
      split_ifs <;> omega
    · rw [c1, hc]
      cases (render_loop t steps).1.complete_signal <;> simp
    · intro a b hab hset
      rw [hab]
      exact render_loop_latch t a b hk (by rw [← hab]; exact hcycle) hset
  · have hspre : ∀ s ∈ pre, ∀ e ∈ s.events, is_hard_reset e = false :=
      fun s h => hsoft s (List.mem_append_left _ h)
    have hsx : ∀ e ∈ x.events, is_hard_reset e = false :=
      hsoft x (List.mem_append_right _ (List.mem_cons_self _ _))
    have hspost : ∀ s ∈ post, ∀ e ∈ s.events, is_hard_reset e = false :=
      fun s h => hsoft s (List.mem_append_right _ (List.mem_cons_of_mem _ h))
    have hokpre : ∀ s ∈ pre, ¬ s.errc < TUI_ERRC_OK :=
      fun s h => hok s (List.mem_append_left _ h)
    have hokx : ¬ x.errc < TUI_ERRC_OK := hok x (by simp)
    obtain ⟨hA1, hkpre⟩ := render_loop_append t pre [x] hk hspre hokpre
    obtain ⟨hA2, _⟩ := render_loop_append t pre (x :: post) hk hspre hokpre
    have hcpre := render_loop_live t pre hk hc hspre hokpre hlive
    obtain ⟨e1, h1, _, c1⟩ := render_loop_marker t pre hk hspre
    obtain ⟨e2, h2, c2, cs2, d2⟩ := render_pass_marker (render_loop t pre).1 x hkpre hsx
    obtain ⟨e3, h3, l3, c3⟩ := render_loop_marker
      (render_tail (render_process (render_loop t pre).1 x).1 x) post d2 hspost
    have hcs2 : (render_tail (render_process (render_loop t pre).1 x).1 x).complete_signal = true := by
      rw [cs2, hdead, hcpre]
      rfl
    have hB1 : render_loop (render_loop t pre).1 [x] =
        (render_tail (render_process (render_loop t pre).1 x).1 x, RenderStatus.running) := by
      rw [render_loop_pass _ x [] hkpre hsx hokx]
      simp [render_loop, d2]
    have hB2 : render_loop (render_loop t pre).1 (x :: post) =
        render_loop (render_tail (render_process (render_loop t pre).1 x).1 x) post :=
      render_loop_pass _ x post hkpre hsx hokx
    refine ⟨e1, e2, e3, h1, ?_, ?_, ?_, ?_, ?_, ?_, ?_⟩
    · rw [hA1, hB1, h2, h1]
    · rw [hA2, hB2, h3, h2, h1]
    · rw [c1, hcpre]
      rfl
    · rw [c2, hdead, hcpre]
      rfl
    · rw [c3, hcs2]
      simp
    · rw [hA1, hB1]
      exact hcs2
    · rw [hA2, hB2]
      exact l3 hcs2

/-- C6 at a concrete input: an idle pass, a pass during which the pump thread
reports the child dead, and one more idle pass. -/
theorem completion_marker_once_witness :
    (∃ evs, (render_loop c6_term [c6_idle, c6_dies, c6_idle]).1.trace = c6_term.trace ++ evs ∧
      progress_done evs ≤ 1 ∧
      (progress_done evs = 1 ↔
        (render_loop c6_term [c6_idle, c6_dies, c6_idle]).1.complete_signal = true) ∧
      (∀ a b, [c6_idle, c6_dies, c6_idle] = a ++ b →
        (render_loop c6_term a).1.complete_signal = true →
        (render_loop c6_term [c6_idle, c6_dies, c6_idle]).1.complete_signal = true)) ∧
    (∃ e1 e2 e3, (render_loop c6_term [c6_idle]).1.trace = c6_term.trace ++ e1 ∧
      (render_loop c6_term ([c6_idle] ++ [c6_dies])).1.trace = c6_term.trace ++ e1 ++ e2 ∧
      (render_loop c6_term ([c6_idle] ++ c6_dies :: [c6_idle])).1.trace =
        c6_term.trace ++ e1 ++ e2 ++ e3 ∧
      progress_done e1 = 0 ∧ progress_done e2 = 1 ∧ progress_done e3 = 0 ∧
      (render_loop c6_term ([c6_idle] ++ [c6_dies])).1.complete_signal = true ∧
      (render_loop c6_term ([c6_idle] ++ c6_dies :: [c6_idle])).1.complete_signal = true) :=
  completion_marker_once c6_term [c6_idle] c6_dies [c6_idle] [c6_idle, c6_dies, c6_idle] rfl rfl
    (by simp [c6_idle, c6_dies, is_hard_reset])
    (by simp [c6_idle, c6_dies, is_hard_reset])
    (by simp [c6_idle, c6_dies, TUI_ERRC_OK])
    (by
      intro p1 y p2 h
      cases p1 with
      | nil =>
        simp only [List.nil_append, List.cons.injEq] at h
        rw [← h.1]
        rfl
      | cons z zs =>
        simp only [List.cons_append, List.cons.injEq] at h
        exact absurd h.2 (by simp))
    rfl

/-! ## C17: a successful `close` in `arcan_release_resource` -/

/-- When `close` fails `i` times and then succeeds, with `i` below the value
of `trycount`, the retry loop makes `i + 1` calls and leaves `trycount` at its
start value minus `i + 1`. -/
theorem close_loop_success (closes : Nat → Bool) (n k i : Nat) (hi : i < n)
    (hfail : ∀ j, j < i → closes (k + j) = false) (hok : closes (k + i) = true) :
    close_loop closes n k = (((n - (i + 1) : Nat) : Int), k + i + 1) := by
  induction n generalizing k i with
  | zero => omega
  | succ m ih =>
    cases i with
    | zero =>
      have h0 : closes k = true := by simpa using hok
      simp [close_loop, h0]
    | succ i1 =>
      have h0 : closes k = false := by simpa using hfail 0 (Nat.succ_pos _)
      have hrest : ∀ j, j < i1 → closes (k + 1 + j) = false := by
        intro j hj
        have := hfail (j + 1) (Nat.succ_lt_succ hj)
        simpa [Nat.add_assoc, Nat.add_comm 1 j] using this
      have hok1 : closes (k + 1 + i1) = true := by
        simpa [Nat.add_assoc, Nat.add_comm 1 i1] using hok
      simp only [close_loop, h0]
      rw [ih (k + 1) i1 (Nat.lt_of_succ_lt_succ hi) hrest hok1]
      simp only [Bool.false_eq_true, if_false, Prod.mk.injEq]
      constructor
      · congr 1
        omega
      · omega

/-- C17 (divergence): for a record with `fd != -1` whose `close` succeeds at
one of the first nine attempts (after `i < 9` failures), `trycount` is left at
`9 - i`, which is not zero, so `if (trycount)` takes the branch meant for a
broken descriptor: the call returns with `fd`, `start` and `len` left as they
are instead of set to -1 (`fd` is not -1 on return), and `source` NULL.  The
annotation is printed from the freed `source` (text `printed`), duplicated
and, when `strdup` gave memory, freed by the trailing block. -/
theorem release_success_not_marked (closes : Nat → Bool) (printed : String) (dup_ok : Bool)
    (sptr : data_source) (i : Nat)
    (hfd : sptr.fd ≠ -1) (hi : i < 9) (hfail : ∀ j, j < i → closes j = false)
    (hok : closes i = true) :
    (arcan_release_resource closes printed dup_ok sptr).1 =
      Release.returned { sptr with source := Source.null } ∧
    (arcan_release_resource closes printed dup_ok sptr).1 ≠
      Release.returned { fd := -1, start := -1, len := -1, source := Source.null } ∧
    (arcan_release_resource closes printed dup_ok sptr).2 =
      List.replicate (i + 1) (RelEv.close sptr.fd) ++
        [RelEv.free (if sptr.source = Source.tag_resleak then Source.null else sptr.source),
         RelEv.strdup (broken_fd sptr.fd printed)] ++
        (if dup_ok then [RelEv.free (Source.heap (broken_fd sptr.fd printed))] else []) := by
  have hloop : close_loop closes 10 0 = (((10 - (i + 1) : Nat) : Int), i + 1) := by
    have := close_loop_success closes 10 0 i (by omega) (by simpa using hfail) (by simpa using hok)
    simpa using this
  have hne : (((10 - (i + 1) : Nat) : Int)) ≠ 0 := by omega
  have hrec : ({ sptr with source := Source.null } : data_source) ≠
      { fd := -1, start := -1, len := -1, source := Source.null } := by
    intro h
    exact hfd (congrArg data_source.fd h)
  unfold arcan_release_resource
  simp only [hfd, ne_eq, not_false_eq_true, if_true, hloop, hne]
  by_cases hs : sptr.source = Source.tag_resleak <;> cases dup_ok <;> simp [hs, hfd]

/-- C17 at a concrete input: descriptor 7 whose first `close` succeeds. -/
theorem release_success_not_marked_witness :
    (arcan_release_resource (fun _ => true) "<freed>" true c4_source).1 =
      Release.returned { c4_source with source := Source.null } ∧
    (arcan_release_resource (fun _ => true) "<freed>" true c4_source).1 ≠
      Release.returned { fd := -1, start := -1, len := -1, source := Source.null } ∧
    (arcan_release_resource (fun _ => true) "<freed>" true c4_source).2 =
      List.replicate (0 + 1) (RelEv.close 7) ++
        [RelEv.free (Source.heap "font.ttf"),
         RelEv.strdup (broken_fd 7 "<freed>")] ++
        (if true then [RelEv.free (Source.heap (broken_fd 7 "<freed>"))] else []) :=
  release_success_not_marked (fun _ => true) "<freed>" true c4_source 0 (by decide)
    (by decide) (fun _ h => absurd h (Nat.not_lt_zero _)) rfl

/-- Only a `close` that succeeds at the tenth attempt leaves `trycount` at
zero and takes the branch that sets `fd`, `start` and `len` to -1.  That
branch frees `source` and leaves the pointer in the record, so for a record
that names its resource the trailing block frees the same pointer a second
time and the call has no defined outcome; it returns the released record only
when `source` was NULL or `tag_resleak`. -/
theorem release_tenth_attempt (closes : Nat → Bool) (printed : String) (dup_ok : Bool)
    (sptr : data_source)
    (hfd : sptr.fd ≠ -1) (hfail : ∀ j, j < 9 → closes j = false) (hok : closes 9 = true) :
    arcan_release_resource closes printed dup_ok sptr =
      match sptr.source with
      | Source.heap name =>
        (Release.undefined,
          List.replicate 10 (RelEv.close sptr.fd) ++
            [RelEv.free (Source.heap name), RelEv.free (Source.heap name)])
      | _ =>
        (Release.returned { fd := -1, start := -1, len := -1, source := Source.null },
          List.replicate 10 (RelEv.close sptr.fd) ++ [RelEv.free Source.null]) := by
  have hloop : close_loop closes 10 0 = ((0 : Int), 10) := by
    have := close_loop_success closes 10 0 9 (by omega) (by simpa using hfail) (by simpa using hok)
    simpa using this
  unfold arcan_release_resource
  simp only [hfd, ne_eq, not_false_eq_true, if_true, hloop]
  cases hsrc : sptr.source <;> simp [hsrc]

/-- A record that was never opened (`fd` is -1) and still carries the static
tag skips the first block; the trailing block then hands the static string
`tag_resleak` to `free`. -/
theorem release_unopened_tag (closes : Nat → Bool) (printed : String) (dup_ok : Bool)
    (sptr : data_source) (hfd : sptr.fd = -1) (htag : sptr.source = Source.tag_resleak) :
    arcan_release_resource closes printed dup_ok sptr =
      (Release.undefined, [RelEv.free Source.tag_resleak]) := by
  unfold arcan_release_resource
  simp [hfd, htag]

/-! ## C11: OSC strings and the window title -/

theorem title_request_iff (m : List Byte) :
    title_request m = true ↔
      ((m.get? 0 = some 48 ∨ m.get? 0 = some 49 ∨ m.get? 0 = some 50) ∧ m.get? 1 = some 59) := by
  cases m with
  | nil => simp [title_request, begins_with]
  | cons a rest =>
    cases rest with
    | nil => simp [title_request, begins_with]
    | cons b rest2 =>
      simp only [title_request, begins_with, List.get?_cons_zero, List.get?_cons_succ,
        Option.some.injEq, Bool.and_true, Bool.or_eq_true, Bool.and_eq_true, beq_iff_eq]
      constructor
      · rintro ((⟨h1, h2⟩ | ⟨h1, h2⟩) | ⟨h1, h2⟩)
        · exact ⟨Or.inl h1.symm, h2.symm⟩
        · exact ⟨Or.inr (Or.inl h1.symm), h2.symm⟩
        · exact ⟨Or.inr (Or.inr h1.symm), h2.symm⟩
      · rintro ⟨h1 | h1 | h1, h2⟩
        · exact Or.inl (Or.inl ⟨h1.symm, h2.symm⟩)
        · exact Or.inl (Or.inr ⟨h1.symm, h2.symm⟩)
        · exact Or.inr ⟨h1.symm, h2.symm⟩

theorem cstring_no_nul (bs : List Byte) (h : (0 : Byte) ∉ bs) : cstring bs = bs := by
  unfold cstring
  rw [List.takeWhile_eq_self_iff]
  intro b hb
  have : b ≠ 0 := fun h0 => h (h0 ▸ hb)
  simpa using this

/-- C11 (counterexample): the uncropped message "0;" begins with a set-title
prefix, yet `str_callback` only logs it (its length is below 3) and does not
set the identity. -/
theorem short_title_ignored :
    title_request [48, 59] = true ∧
    (str_callback live_term (some [48, 59]) 2 false).trace = [Ev.debug_log] := by
  constructor <;> decide

/-- C11 (amended): for every uncropped, non-NULL OSC string: if its length is
at least 3 and it begins with "0;", "1;" or "2;", the one call made is
`arcan_tui_ident` with the C string after the two-character prefix (the whole
tail when the message holds no NUL byte); in every other case, messages
shorter than 3 included, the one call made is a log entry and the identity is
not set.  Nothing else in the terminal state changes. -/
theorem str_callback_title (t : Term) (m : List Byte) (len : Nat) :
    (str_callback t (some m) len false).trace =
      t.trace ++ [if 3 ≤ len ∧ title_request m = true
        then Ev.arcan_tui_ident (cstring (m.drop 2)) else Ev.debug_log] ∧
    { str_callback t (some m) len false with trace := t.trace } = t ∧
    ((0 : Byte) ∉ m → cstring (m.drop 2) = m.drop 2) := by
  refine ⟨?_, ?_, ?_⟩
  · unfold str_callback
    by_cases hl : len < 3
    · have h3 : ¬ 3 ≤ len := by omega
      simp [hl, h3]
    · have h3 : 3 ≤ len := by omega
      by_cases ht : title_request m = true
      · have hc := (title_request_iff m).mp ht
        simp only [hl, Bool.false_eq_true, or_self, if_false, hc, and_self, if_true, h3, ht,
          emit_trace]
      · have hc : ¬ ((m.get? 0 = some 48 ∨ m.get? 0 = some 49 ∨ m.get? 0 = some 50) ∧
            m.get? 1 = some 59) := fun h => ht ((title_request_iff m).mpr h)
        simp only [hl, Bool.false_eq_true, or_self, if_false, hc, h3, ht, and_false,
          emit_trace]
  · unfold str_callback
    simp only []
    split_ifs <;> rfl
  · intro h
    exact cstring_no_nul _ (fun hm => h (List.mem_of_mem_drop hm))

/-! ## C15: execution-state events -/

/-- C15: `on_exec_state` makes one `shl_pty_signal` call on `term.pty` with
SIGCONT, SIGSTOP or SIGHUP when the state is 0, 1 or 2, and for every other
state makes no call; in no case does anything else in the terminal state
change. -/
theorem on_exec_state_signals (t : Term) (s : Int) :
    (on_exec_state t s).trace =
      t.trace ++ (match spec_exec_signal s with
        | some sig => [Ev.shl_pty_signal t.pty sig]
        | none => []) ∧
    signals_sent ((on_exec_state t s).trace.drop t.trace.length) =
      (spec_exec_signal s).toList ∧
    { on_exec_state t s with trace := t.trace } = t ∧
    (s ≠ 0 → s ≠ 1 → s ≠ 2 → on_exec_state t s = t) := by
  unfold on_exec_state spec_exec_signal
  by_cases h0 : s = 0
  · simp [h0, signals_sent, Term.emit]
  · by_cases h1 : s = 1
    · simp [h1, signals_sent, Term.emit]
    · by_cases h2 : s = 2
      · simp [h2, signals_sent, Term.emit]
      · simp [h0, h1, h2, signals_sent]

/-! ## C14: display input to the PTY -/

/-- C14: `on_u8` makes exactly one `write` call, on the descriptor of
`term.pty` and with the `len` bytes of `u8` in order; it stores
`alive = false` and hides the cursor exactly when that call reports failure
(a negative result) and otherwise leaves `alive` as it is; it returns true in
every case and changes nothing else. -/
theorem on_u8_writes (t : Term) (u8 : List Byte) (rv : Int) :
    (on_u8 t u8 rv).2 = true ∧
    (on_u8 t u8 rv).1.trace =
      t.trace ++ Ev.write (shl_pty_get_fd t.pty) u8 ::
        (if rv < 0 then [Ev.alive_store false, Ev.arcan_tui_set_flags_hide_cursor] else []) ∧
    (on_u8 t u8 rv).1.alive = (if rv < 0 then false else t.alive) ∧
    { (on_u8 t u8 rv).1 with trace := t.trace, alive := t.alive } = t := by
  unfold on_u8
  by_cases h : rv < 0 <;> simp [h, Term.emit, Term.store_alive]

/-! ## C13: frame callbacks -/

theorem scratch_store_full (cbres cb : Nat) (sc : List scratch_slot)
    (hfull : occupied sc = sc.length) : scratch_store cbres cb sc = none := by
  induction sc with
  | nil => rfl
  | cons s rest ih =>
    have hle : occupied rest ≤ rest.length := List.length_filter_le _ _
    by_cases h0 : s.type = 0
    · simp [occupied, List.filter_cons, h0] at hfull
      have := List.length_filter_le (fun s : scratch_slot => !(s.type == 0)) rest
      omega
    · have hrest : occupied rest = rest.length := by
        simpa [occupied, List.filter_cons, h0] using hfull
      simp [scratch_store, h0, ih hrest]

/-- With a free slot the callback is stored in the first one: the slots in
front of it are occupied and kept, the slot itself takes the resource, the
id and type 1, and the slots behind it are kept. -/
theorem scratch_store_free (cbres cb : Nat) (sc : List scratch_slot)
    (hfree : occupied sc < sc.length) :
    ∃ front s back, sc = front ++ s :: back ∧ s.type = 0 ∧ occupied front = front.length ∧
      scratch_store cbres cb sc =
        some (front ++ { type := 1, res := some cbres, id := cb } :: back) := by
  induction sc with
  | nil => simp [occupied] at hfree
  | cons s rest ih =>
    by_cases h0 : s.type = 0
    · exact ⟨[], s, rest, rfl, h0, rfl, by simp [scratch_store, h0]⟩
    · have hrest : occupied rest < rest.length := by
        simpa [occupied, List.filter_cons, h0] using hfree
      obtain ⟨front, s1, back, hsc, hs1, hfront, hstore⟩ := ih hrest
      refine ⟨s :: front, s1, back, by rw [hsc]; rfl, hs1, ?_, ?_⟩
      · simp [occupied, List.filter_cons, h0] at hfront ⊢
        exact hfront
      · simp [scratch_store, h0, hstore]

/-- C13 (divergence): when every scratch slot is occupied and the pending
counts add up to the number of slots, the test `frames_pending +
subsurf_pending > COUNT_OF(scratch)` does not fire; the callback resource is
created, the loop finds no free slot, and `surf_frame` returns with the
surface unchanged and without posting no-memory: the request is accepted but
not recorded. -/
theorem surf_frame_full_unrecorded (surf : comp_surf) (cb r : Nat)
    (hfull : occupied surf.scratch = surf.scratch.length)
    (hpend : surf.frames_pending + surf.subsurf_pending = occupied surf.scratch) :
    surf_frame surf cb (some r) = (surf, [WlEv.wl_resource_create cb (some r)]) := by
  have hg : ¬ surf.frames_pending + surf.subsurf_pending > surf.scratch.length := by omega
  unfold surf_frame
  simp only [hg, if_false, scratch_store_full r cb surf.scratch hfull]

/-- C13 at a concrete input: both slots of the surface are taken. -/
theorem surf_frame_full_unrecorded_witness :
    surf_frame c13_surf 3 (some 13) = (c13_surf, [WlEv.wl_resource_create 3 (some 13)]) :=
  surf_frame_full_unrecorded c13_surf 3 13 (by decide) (by decide)

/-- With a free slot and the pending counts equal to the number of occupied
slots, `surf_frame` either records the callback in the first free slot and
counts it, or (when `wl_resource_create` fails) posts no-memory and leaves the
surface unchanged. -/
theorem surf_frame_free (surf : comp_surf) (cb : Nat) (cbres : Option Nat)
    (hfree : occupied surf.scratch < surf.scratch.length)
    (hpend : surf.frames_pending + surf.subsurf_pending = occupied surf.scratch) :
    (cbres = none ∧ surf_frame surf cb cbres =
      (surf, [WlEv.wl_resource_create cb none, WlEv.wl_resource_post_no_memory])) ∨
    (∃ r front s back, cbres = some r ∧ surf.scratch = front ++ s :: back ∧ s.type = 0 ∧
      occupied front = front.length ∧
      surf_frame surf cb cbres =
        ({ surf with frames_pending := surf.frames_pending + 1,
                     scratch := front ++ { type := 1, res := some r, id := cb } :: back },
          [WlEv.wl_resource_create cb (some r)])) := by
  have hg : ¬ surf.frames_pending + surf.subsurf_pending > surf.scratch.length := by omega
  cases cbres with
  | none =>
    left
    exact ⟨rfl, by simp [surf_frame, hg]⟩
  | some r =>
    right
    obtain ⟨front, s, back, hsc, hs, hfront, hstore⟩ := scratch_store_free r cb surf.scratch hfree
    refine ⟨r, front, s, back, rfl, hsc, hs, hfront, ?_⟩
    unfold surf_frame
    simp only [hg, if_false, hstore]

/-! ## C12: the environment handed to the child -/

theorem getenv_setenv_self (e : Env) (n v : String) :
    getenv (setenv e n v true) n = some v := by
  simp [setenv, getenv_cons]

theorem getenv_setenv_default (e : Env) (n v : String) :
    getenv (setenv e n v false) n = some ((getenv e n).getD v) := by
  unfold setenv
  cases h : getenv e n with
  | none => simp [getenv_cons]
  | some x => simp [h]

theorem getenv_unsetenv_none (e : Env) (x n : String) (h : getenv e n = none) :
    getenv (unsetenv e x) n = none := by
  by_cases hx : n = x
  · rw [hx]
    exact getenv_unsetenv_self e x
  · rw [getenv_unsetenv_ne e x n hx, h]

theorem getenv_unset_all_none (names : List String) (e : Env) (n : String)
    (h : getenv e n = none) : getenv (names.foldl unsetenv e) n = none := by
  induction names generalizing e with
  | nil => exact h
  | cons x xs ih => exact ih _ (getenv_unsetenv_none e x n h)

theorem getenv_unset_all_mem (names : List String) (e : Env) (n : String) (h : n ∈ names) :
    getenv (names.foldl unsetenv e) n = none := by
  induction names generalizing e with
  | nil => simp at h
  | cons x xs ih =>
    rw [List.foldl_cons]
    rcases List.mem_cons.mp h with rfl | hm
    · exact getenv_unset_all_none xs _ n (getenv_unsetenv_self e n)
    · exact ih _ hm

theorem putenv_override (e : Env) (k v : String) (hk : '=' ∉ k.data) :
    putenv e (k ++ "=" ++ v) = setenv e k v true := by
  have hdata : (k ++ "=" ++ v).data = k.data ++ '=' :: v.data := by
    simp [String.data_append]
  have htake : (k.data ++ '=' :: v.data).takeWhile (fun c => !(c == '=')) = k.data := by
    rw [List.takeWhile_append_of_pos]
    · simp
    · intro c hc
      have : c ≠ '=' := fun h => hk (h ▸ hc)
      simpa using this
  have hdrop : (k.data ++ '=' :: v.data).dropWhile (fun c => !(c == '=')) = '=' :: v.data := by
    rw [List.dropWhile_append_of_pos]
    · simp
    · intro c hc
      have : c ≠ '=' := fun h => hk (h ▸ hc)
      simpa using this
  unfold putenv
  rw [hdata, htake, hdrop]
  simp

/-- The scrub and the defaults of `setup_shell` give the map of the
specification (build other than OpenBSD). -/
theorem shell_defaults_spec (e : Env) (n : String) :
    getenv (shell_defaults false e) n = spec_defaults e n := by
  unfold shell_defaults spec_defaults env_update spec_scrub
  simp only [Bool.false_eq_true, if_false]
  by_cases ht : n = "TERM"
  · rw [ht, getenv_setenv_self]
    simp
  · rw [getenv_setenv_ne _ _ _ _ _ ht, if_neg ht]
    by_cases hc : n = "LC_CTYPE"
    · rw [hc, getenv_setenv_default, getenv_setenv_ne _ _ _ _ _ (by decide),
        getenv_unset_all _ _ _ (by decide)]
      simp [unset_names]
    · rw [getenv_setenv_ne _ _ _ _ _ hc]
      by_cases hl : n = "LANG"
      · rw [hl, getenv_setenv_default, getenv_unset_all _ _ _ (by decide)]
        simp [unset_names]
      · rw [getenv_setenv_ne _ _ _ _ _ hl]
        simp only [hl, hc, or_self, if_false]
        by_cases hu : n ∈ unset_names
        · rw [if_pos hu, getenv_unset_all_mem _ _ _ hu]
        · rw [if_neg hu, getenv_unset_all _ _ _ hu]

/-- The override loop of `setup_shell` over K=V values applies them to the
environment in order, seen as a map. -/
theorem putenv_all_overrides (kvs : List (String × String)) (e : Env)
    (m : String → Option String) (hkeys : ∀ kv ∈ kvs, '=' ∉ kv.1.data)
    (hm : ∀ n, getenv e n = m n) :
    ∃ e1, putenv_all e (kvs.map override_arg) = some e1 ∧
      ∀ n, getenv e1 n = (kvs.foldl (fun m kv => env_update m kv.1 kv.2) m) n := by
  induction kvs generalizing e m with
  | nil => exact ⟨e, rfl, hm⟩
  | cons kv rest ih =>
    have hk := hkeys kv (List.mem_cons_self _ _)
    have hstep : ∀ n, getenv (putenv e (kv.1 ++ "=" ++ kv.2)) n = env_update m kv.1 kv.2 n := by
      intro n
      rw [putenv_override e kv.1 kv.2 hk]
      unfold env_update
      by_cases hn : n = kv.1
      · rw [hn, getenv_setenv_self]
        simp
      · rw [getenv_setenv_ne _ _ _ _ _ hn, if_neg hn, hm]
    obtain ⟨e1, h1, h2⟩ := ih (putenv e (kv.1 ++ "=" ++ kv.2)) (env_update m kv.1 kv.2)
      (fun x hx => hkeys x (List.mem_cons_of_mem _ hx)) hstep
    exact ⟨e1, by simpa [putenv_all, override_arg] using h1, by simpa using h2⟩

theorem getenv_exec_names (e : Env) (n : String) :
    getenv (unsetenv (unsetenv (unsetenv (unsetenv e "ARCAN_TERMINAL_EXEC")
      "ARCAN_TERMINAL_PIDFD_IN") "ARCAN_TERMINAL_PIDFD_OUT") "ARCAN_TERMINAL_ARGV") n =
      if n ∈ exec_names then none else getenv e n := by
  have h := getenv_unset_all_mem exec_names e n
  have h2 := getenv_unset_all exec_names e n
  by_cases hn : n ∈ exec_names
  · rw [if_pos hn]
    exact h hn
  · rw [if_neg hn]
    exact h2 hn

/-- C12 (counterexample): with ARCAN_TERMINAL_EXEC set in the incoming
environment and no override, the child runs the command with
ARCAN_TERMINAL_EXEC removed from its environment, while scrub, defaults and
overrides alone would leave it in. -/
theorem exec_env_filtered :
    ∃ call, setup_shell c3_child c3_child.environ [] ["/bin/sh", "-i"] = SpawnResult.exec call ∧
      getenv call.env "ARCAN_TERMINAL_EXEC" = none ∧
      spec_child_env c3_child.environ [] "ARCAN_TERMINAL_EXEC" = some "/usr/bin/top" :=
  ⟨_, rfl, by decide, by decide⟩

/-- C12 (amended): in a build other than OpenBSD that allows `exec`, when the
`env` arguments are the overrides `kvs` in the form K=V (no `=` in K) and the
`exec` argument, if present, carries a value, `setup_shell` ends in an exec
call whose environment, as a map from names to values, is the incoming
environment with the 11 scrubbed names removed, then LANG and LC_CTYPE set to
en_GB.UTF-8 only if unset and TERM set to xterm-256color, then the overrides
applied in argument order; and when an exec command is set (by the packed
`exec` argument or by ARCAN_TERMINAL_EXEC in that map) the four names
ARCAN_TERMINAL_EXEC, ARCAN_TERMINAL_PIDFD_IN, ARCAN_TERMINAL_PIDFD_OUT and
ARCAN_TERMINAL_ARGV are removed from it. -/
theorem setup_shell_child_env (c : ChildEnv) (e : Env) (argarr : ArgArr) (args : List String)
    (kvs : List (String × String)) (hbsd : c.openbsd = false) (hbuild : c.noexec = false)
    (hov : env_overrides argarr = kvs.map override_arg)
    (hkeys : ∀ kv ∈ kvs, '=' ∉ kv.1.data)
    (hexec : arg_lookup argarr "exec" 0 ≠ some none) :
    ∃ call, setup_shell c e argarr args = SpawnResult.exec call ∧
      ∀ n, getenv call.env n =
        if (((arg_lookup argarr "exec" 0).bind id).orElse
              (fun _ => spec_child_env e kvs "ARCAN_TERMINAL_EXEC")).isSome = true ∧
            n ∈ exec_names
        then none else spec_child_env e kvs n := by
  obtain ⟨e1, h1, h2⟩ := putenv_all_overrides kvs (shell_defaults false e) (spec_defaults e)
    hkeys (shell_defaults_spec e)
  have h2x : spec_child_env e kvs "ARCAN_TERMINAL_EXEC" = getenv e1 "ARCAN_TERMINAL_EXEC" :=
    (h2 _).symm
  unfold setup_shell
  simp only [hbsd, hov, h1, hbuild]
  cases hx : arg_lookup argarr "exec" 0 with
  | none =>
    refine ⟨_, rfl, ?_⟩
    intro n
    rw [h2x]
    simp only [Option.bind, Option.orElse, shell_exec]
    cases hg : getenv e1 "ARCAN_TERMINAL_EXEC" with
    | none => simpa using h2 n
    | some cmd =>
      cases getenv e1 "ARCAN_TERMINAL_ARGV" <;>
        simp only [getenv_exec_names, Option.isSome_some, true_and] <;>
        split_ifs <;> first | rfl | exact h2 n
  | some v =>
    cases v with
    | none => exact absurd hx hexec
    | some cmd =>
      refine ⟨_, rfl, ?_⟩
      intro n
      simp only [Option.bind, Option.orElse, shell_exec, id]
      cases getenv e1 "ARCAN_TERMINAL_ARGV" <;>
        simp only [getenv_exec_names, Option.isSome_some, true_and] <;>
        split_ifs <;> first | rfl | exact h2 n

/-- C12 (amended) at a concrete input: two overrides of LANG, the later one
wins. -/
theorem setup_shell_child_env_witness :
    ∃ call, setup_shell c3_child c3_child.environ c12_args ["/bin/sh", "-i"] =
        SpawnResult.exec call ∧
      ∀ n, getenv call.env n =
        if (((arg_lookup c12_args "exec" 0).bind id).orElse
              (fun _ => spec_child_env c3_child.environ [("LANG", "C"), ("LANG", "de_DE")]
                "ARCAN_TERMINAL_EXEC")).isSome = true ∧
            n ∈ exec_names
        then none
        else spec_child_env c3_child.environ [("LANG", "C"), ("LANG", "de_DE")] n :=
  setup_shell_child_env c3_child c3_child.environ c12_args ["/bin/sh", "-i"]
    [("LANG", "C"), ("LANG", "de_DE")] rfl rfl (by decide) (by decide) (by decide)

/-! ## C16: the drain loop is bounded by `cap` -/

end Arcan
